import Mathlib

/-!
Verification of the greenhouse telemetry pipeline (decoder, per-node rolling
aggregator, greenhouse aggregator, batched SQLite storage writer).

Shallow embedding conventions:
* 32-bit floats are modelled by `FVal`: either a finite rational (the exact
  value the bit pattern denotes) or the non-finite marker (NaN / ±inf, IEEE
  exponent all ones).  All in-memory arithmetic on these values is exact
  rational arithmetic; the aggregators of the source accumulate in `f64`,
  whose rounding the claims do not speak about.
* Byte buffers are `List ℕ` (each entry intended < 256; the structure of the
  decoder does not depend on that bound).
* `tokio::time::Instant` is a monotone clock; instants are `ℕ` (seconds) and
  `Instant::duration_since`, which saturates at zero, is truncated
  subtraction on `ℕ`.
-/

namespace AppTest

/-- Model of an `f32` value: a finite rational or the non-finite marker. -/
inductive FVal where
  | fin (q : ℚ)
  | nonfin
  deriving DecidableEq, Repr

/-- `f32::is_finite`. -/
def FVal.isFinite : FVal → Bool
  | .fin _ => true
  | .nonfin => false

/-! ## Decoder (`services/mqtt/greenhouse_sensor/decoder.rs`) -/

/-- `rd_u16_le`: `b.get(o..o+2).map(|s| u16::from_le_bytes([s[0], s[1]]))`.
Rust's `get(o..o+2)` is `None` exactly when `o+2 > b.len()`. -/
def rd_u16_le (b : List ℕ) (o : ℕ) : Option ℕ :=
  if o + 2 ≤ b.length then
    some ((b.getD o 0) % 256 + 256 * ((b.getD (o+1) 0) % 256))
  else none

/-- IEEE-754 binary32 interpretation of a 32-bit word (`f32::from_le_bytes`):
exponent all ones is non-finite (NaN/±inf); otherwise the exact rational
value, including subnormals: `(1 + frac/2^23) * 2^(expo-127)` written as the
integer ratio `(2^23 + frac) * 2^expo / 2^150` (and `frac / 2^149` for the
subnormal case). -/
def f32FromBits (n : ℕ) : FVal :=
  let sign : ℕ := n / 2^31 % 2
  let expo : ℕ := n / 2^23 % 2^8
  let frac : ℕ := n % 2^23
  if expo = 255 then FVal.nonfin
  else
    let mag : ℚ :=
      if expo = 0 then mkRat frac (2^149)
      else mkRat ((2^23 + frac) * 2^expo) (2^150)
    FVal.fin (if sign = 1 then -mag else mag)

/-- `rd_f32_le`: four individually bounds-checked byte reads, then
`f32::from_le_bytes`. -/
def rd_f32_le (b : List ℕ) (o : ℕ) : Option FVal := do
  let a  ← b[o]?
  let a1 ← b[o+1]?
  let a2 ← b[o+2]?
  let a3 ← b[o+3]?
  pure (f32FromBits (a % 256 + 256 * (a1 % 256) + 65536 * (a2 % 256)
        + 16777216 * (a3 % 256)))

/-- Fields of `Decoded::Standard` (decoder.rs). -/
structure StandardData where
  greenhouse_id : ℕ
  node_id : ℕ
  air_temp_c : FVal
  leaf_temp_c : FVal
  bag_temp_c : FVal
  air_rh_pct : FVal
  bag_rh1_pct : FVal
  bag_rh2_pct : FVal
  bag_rh3_pct : FVal
  bag_rh4_pct : FVal
  bag_rh_avg_pct : FVal
  par_value : ℕ
  weight_g : ℕ
  ea_air_kpa : FVal
  ea_leaf_kpa : FVal
  es_kpa : FVal
  vpd_kpa : FVal
  deriving DecidableEq, Repr

/-- Fields of `Decoded::Outdoor` (decoder.rs). -/
structure OutdoorData where
  greenhouse_id : ℕ
  node_id : ℕ
  air_temp_c : FVal
  air_rh_pct : FVal
  par_value : ℕ
  ea_air_kpa : FVal
  es_kpa : FVal
  deriving DecidableEq, Repr

/-- `enum Decoded` (decoder.rs). -/
inductive Decoded where
  | standard (d : StandardData)
  | outdoor (d : OutdoorData)
  deriving DecidableEq, Repr

/-- `decode_payload` (decoder.rs lines 56–109): dispatch is a `match` on
`p.len()` — `60` decodes Standard, `22` decodes Outdoor, everything else is
`None`. -/
def decode_payload (p : List ℕ) : Option Decoded :=
  if p.length = 60 then
    -- the `?` operator chain of the source: any failed read aborts with None
    match rd_u16_le p 0, rd_u16_le p 2,
          rd_f32_le p 4, rd_f32_le p 8, rd_f32_le p 12, rd_f32_le p 16,
          rd_f32_le p 20, rd_f32_le p 24, rd_f32_le p 28, rd_f32_le p 32,
          rd_f32_le p 36, rd_u16_le p 40, rd_u16_le p 42,
          rd_f32_le p 44, rd_f32_le p 48, rd_f32_le p 52, rd_f32_le p 56 with
    | some greenhouse_id, some node_id,
      some air_temp_c, some leaf_temp_c, some bag_temp_c, some air_rh_pct,
      some bag_rh1_pct, some bag_rh2_pct, some bag_rh3_pct, some bag_rh4_pct,
      some bag_rh_avg_pct, some par_value, some weight_g,
      some ea_air_kpa, some ea_leaf_kpa, some es_kpa, some vpd_kpa =>
        some (Decoded.standard {
          greenhouse_id, node_id,
          air_temp_c, leaf_temp_c, bag_temp_c, air_rh_pct,
          bag_rh1_pct, bag_rh2_pct, bag_rh3_pct, bag_rh4_pct, bag_rh_avg_pct,
          par_value, weight_g, ea_air_kpa, ea_leaf_kpa, es_kpa, vpd_kpa })
    | _, _, _, _, _, _, _, _, _, _, _, _, _, _, _, _, _ => none
  else if p.length = 22 then
    match rd_u16_le p 0, rd_u16_le p 2, rd_f32_le p 4, rd_f32_le p 8,
          rd_u16_le p 12, rd_f32_le p 14, rd_f32_le p 18 with
    | some greenhouse_id, some node_id, some air_temp_c, some air_rh_pct,
      some par_value, some ea_air_kpa, some es_kpa =>
        some (Decoded.outdoor {
          greenhouse_id, node_id, air_temp_c, air_rh_pct, par_value,
          ea_air_kpa, es_kpa })
    | _, _, _, _, _, _, _ => none
  else none

/-- The reserved outdoor-probe node id. -/
def OUTDOOR_NODE_ID : ℕ := 65001

/-! ## Per-node rolling aggregator
(`services/mqtt/greenhouse_sensor/aggregator.rs`) -/

/-- `const WINDOW: Duration = Duration::from_secs(60)` (seconds). -/
def WINDOW : ℕ := 60

/-- `const MAX_SAMPLES_PER_NODE: usize = 64`. -/
def MAX_SAMPLES_PER_NODE : ℕ := 64

/-- `struct TimedSample { at: Instant, data: Decoded }`.  The source field
`at` is a Lean keyword, so it is called `atT` here. -/
structure TimedSample where
  atT : ℕ
  data : Decoded
  deriving DecidableEq, Repr

/-- `enum NodeKind`. -/
inductive NodeKind where
  | standard
  | outdoor
  deriving DecidableEq, Repr

/-- `struct NodeWindow`.  `lastPrune` is specification instrumentation, not a
source field: it records the `now` instant of the most recent prune of this
window (set by `push_and_prune` and by the tick re-prune), so that the
window-staleness invariant can be stated relative to the prune instant. -/
structure NodeWindow where
  kind : NodeKind
  ids : ℕ × ℕ
  buf : List TimedSample
  lastPrune : ℕ
  deriving DecidableEq, Repr

/-- `NodeWindow::new`. -/
def NodeWindow.new (kind : NodeKind) (ids : ℕ × ℕ) : NodeWindow :=
  { kind, ids, buf := [], lastPrune := 0 }

/-- The front-pruning loop of `push_and_prune` and of the tick
(aggregator.rs lines 43–45 and 122–124): pop from the front while the front
entry is strictly older than `WINDOW`, stopping at the first young entry. -/
def pruneOld (now : ℕ) : List TimedSample → List TimedSample
  | [] => []
  | s :: rest => if now - s.atT > WINDOW then pruneOld now rest else s :: rest

/-- The count-cap loop of `push_and_prune` (line 46): pop from the front
while the length exceeds `MAX_SAMPLES_PER_NODE`. -/
def capTrim (l : List TimedSample) : List TimedSample :=
  l.drop (l.length - MAX_SAMPLES_PER_NODE)

/-- `NodeWindow::push_and_prune` (lines 41–47): append the sample stamped
`now`, prune old entries from the front, then trim to the count cap. -/
def NodeWindow.push_and_prune (w : NodeWindow) (now : ℕ) (data : Decoded) :
    NodeWindow :=
  { w with buf := capTrim (pruneOld now (w.buf ++ [{ atT := now, data }])),
           lastPrune := now }

/-- `struct NodeAvg` (lines 51–72): per-node snapshot, every field optional. -/
structure NodeAvg where
  greenhouse_id : ℕ
  node_id : ℕ
  atT : ℕ
  air_temp_c : Option ℚ
  leaf_temp_c : Option ℚ
  bag_temp_c : Option ℚ
  air_rh_pct : Option ℚ
  bag_rh1_pct : Option ℚ
  bag_rh2_pct : Option ℚ
  bag_rh3_pct : Option ℚ
  bag_rh4_pct : Option ℚ
  bag_rh_avg_pct : Option ℚ
  par_value : Option ℚ
  weight_g : Option ℚ
  ea_air_kpa : Option ℚ
  ea_leaf_kpa : Option ℚ
  es_kpa : Option ℚ
  vpd_kpa : Option ℚ
  deriving DecidableEq, Repr

/-- `fn mean(sum, cnt)` (line 74): `None` for an empty count, else the
quotient. -/
def mean (sum : ℚ) (cnt : ℕ) : Option ℚ :=
  if cnt = 0 then none else some (sum / cnt)

/-- `fn acc(v, sum, cnt)` (lines 77–79): accumulate only finite values. -/
def acc (v : FVal) (sc : ℚ × ℕ) : ℚ × ℕ :=
  match v with
  | .fin q => (sc.1 + q, sc.2 + 1)
  | .nonfin => sc

/-- Running `acc` over a list of observations, starting from `(0.0, 0)`. -/
def sumCnt (vs : List FVal) : ℚ × ℕ :=
  vs.foldl (fun sc v => acc v sc) (0, 0)

/-- The per-field observation list of a Standard window: the `if let
Decoded::Standard` filter of the tick loop (lines 140–145), projected to one
field. -/
def stdVals (proj : StandardData → FVal) (buf : List TimedSample) :
    List FVal :=
  buf.filterMap fun s =>
    match s.data with
    | .standard d => some (proj d)
    | _ => none

/-- The per-field observation list of an Outdoor window (lines 204–205). -/
def outVals (proj : OutdoorData → FVal) (buf : List TimedSample) :
    List FVal :=
  buf.filterMap fun s =>
    match s.data with
    | .outdoor d => some (proj d)
    | _ => none

/-- Mean of one Standard field over the buffer: the source's
`acc` accumulation followed by `mean(sum, cnt)`. -/
def meanStd (proj : StandardData → FVal) (buf : List TimedSample) :
    Option ℚ :=
  let sc := sumCnt (stdVals proj buf)
  mean sc.1 sc.2

/-- Mean of one Outdoor field over the buffer. -/
def meanOut (proj : OutdoorData → FVal) (buf : List TimedSample) :
    Option ℚ :=
  let sc := sumCnt (outVals proj buf)
  mean sc.1 sc.2

/-- The `NodeAvg` built by the tick for a Standard window
(aggregator.rs lines 129–174); `par_value`/`weight_g` are widened from u16
(`par_value as f32`), hence always finite. -/
def mkStandardAvg (ids : ℕ × ℕ) (now : ℕ) (buf : List TimedSample) :
    NodeAvg :=
  { greenhouse_id := ids.1, node_id := ids.2, atT := now,
    air_temp_c := meanStd (·.air_temp_c) buf,
    leaf_temp_c := meanStd (·.leaf_temp_c) buf,
    bag_temp_c := meanStd (·.bag_temp_c) buf,
    air_rh_pct := meanStd (·.air_rh_pct) buf,
    bag_rh1_pct := meanStd (·.bag_rh1_pct) buf,
    bag_rh2_pct := meanStd (·.bag_rh2_pct) buf,
    bag_rh3_pct := meanStd (·.bag_rh3_pct) buf,
    bag_rh4_pct := meanStd (·.bag_rh4_pct) buf,
    bag_rh_avg_pct := meanStd (·.bag_rh_avg_pct) buf,
    par_value := meanStd (fun d => .fin d.par_value) buf,
    weight_g := meanStd (fun d => .fin d.weight_g) buf,
    ea_air_kpa := meanStd (·.ea_air_kpa) buf,
    ea_leaf_kpa := meanStd (·.ea_leaf_kpa) buf,
    es_kpa := meanStd (·.es_kpa) buf,
    vpd_kpa := meanStd (·.vpd_kpa) buf }

/-- The `NodeAvg` built by the tick for an Outdoor window (lines 199–223):
the five outdoor fields are averaged, every other field is `None`. -/
def mkOutdoorAvg (ids : ℕ × ℕ) (now : ℕ) (buf : List TimedSample) :
    NodeAvg :=
  { greenhouse_id := ids.1, node_id := ids.2, atT := now,
    air_temp_c := meanOut (·.air_temp_c) buf,
    leaf_temp_c := none, bag_temp_c := none,
    air_rh_pct := meanOut (·.air_rh_pct) buf,
    bag_rh1_pct := none, bag_rh2_pct := none,
    bag_rh3_pct := none, bag_rh4_pct := none, bag_rh_avg_pct := none,
    par_value := meanOut (fun d => .fin d.par_value) buf,
    weight_g := none,
    ea_air_kpa := meanOut (·.ea_air_kpa) buf,
    ea_leaf_kpa := none,
    es_kpa := meanOut (·.es_kpa) buf,
    vpd_kpa := none }

/-- One window's share of the tick (lines 121–238): re-prune for staleness,
keep the pruned buffer in the state, emit nothing for an empty buffer
(`if samples == 0 { continue; }`), else build the kind-matching snapshot. -/
def tickWindow (now : ℕ) (w : NodeWindow) : NodeWindow × Option NodeAvg :=
  let buf := pruneOld now w.buf
  let w2 : NodeWindow := { w with buf := buf, lastPrune := now }
  if buf.length = 0 then (w2, none)
  else
    match w.kind with
    | .standard => (w2, some (mkStandardAvg w.ids now buf))
    | .outdoor => (w2, some (mkOutdoorAvg w.ids now buf))

/-- A bounded mpsc channel viewed from the sender side: capacity and the
messages currently queued. -/
structure BQueue (α : Type) where
  cap : ℕ
  items : List α
  deriving Repr

/-- `Sender::try_send`: enqueue when below capacity, otherwise drop the
message and leave the queue unchanged (the source discards the result:
`let _ = tx.try_send(na);`). -/
def trySend {α : Type} (q : BQueue α) (a : α) : BQueue α :=
  if q.items.length < q.cap then { q with items := q.items ++ [a] } else q

/-- The keyed window map of `run_rolling_avg` (`HashMap` as an association
list in iteration order). -/
abbrev NodeMap := List ((ℕ × ℕ) × NodeWindow)

/-- Key and kind selected from a decoded sample (lines 109–114). -/
def keyKind (d : Decoded) : (ℕ × ℕ) × NodeKind :=
  match d with
  | .standard s => ((s.greenhouse_id, s.node_id), .standard)
  | .outdoor o => ((o.greenhouse_id, o.node_id), .outdoor)

/-- `nodes.entry(key).or_insert_with(...).push_and_prune(now, msg)`
(lines 115–116): look up or create the window for the key (keeping the
first-seen kind), then push-and-prune. -/
def updateEntry (now : ℕ) (d : Decoded) : NodeMap → NodeMap
  | [] =>
      let kk := keyKind d
      [(kk.1, (NodeWindow.new kk.2 kk.1).push_and_prune now d)]
  | (k, w) :: rest =>
      if k = (keyKind d).1 then (k, w.push_and_prune now d) :: rest
      else (k, w) :: updateEntry now d rest

/-- The tick arm of the `select!` loop (lines 119–240): walk the window
map; each non-empty re-pruned window produces one snapshot, offered with
`try_send` first to the DB queue and then to the greenhouse queue. -/
def tickLoop (now : ℕ) :
    NodeMap → BQueue NodeAvg → BQueue NodeAvg →
    NodeMap × BQueue NodeAvg × BQueue NodeAvg
  | [], qdb, qgh => ([], qdb, qgh)
  | (k, w) :: rest, qdb, qgh =>
      let tw := tickWindow now w
      match tw.2 with
      | none =>
          let r := tickLoop now rest qdb qgh
          ((k, tw.1) :: r.1, r.2.1, r.2.2)
      | some na =>
          let r := tickLoop now rest (trySend qdb na) (trySend qgh na)
          ((k, tw.1) :: r.1, r.2.1, r.2.2)

/-- The snapshots a tick at `now` produces, in map order. -/
def tickEmits (now : ℕ) (m : NodeMap) : List NodeAvg :=
  m.filterMap fun kw => (tickWindow now kw.2).2

/-- The tick schedule of `run_rolling_avg`: `interval(WINDOW)` whose
immediate first tick is consumed before the loop (`tick.tick().await; //
align first output to +60s`), so the n-th processed tick fires at
`(n+1) * WINDOW` after start. -/
def tickInstant (n : ℕ) : ℕ := (n + 1) * WINDOW

/-- Events driving `run_rolling_avg`, stamped with the monotone instant at
which they are handled. -/
inductive AggEvent where
  | sample (t : ℕ) (d : Decoded)
  | tick (t : ℕ)
  deriving Repr

/-- Instant of an event. -/
def AggEvent.time : AggEvent → ℕ
  | .sample t _ => t
  | .tick t => t

/-- One iteration of the `select!` loop of `run_rolling_avg`, restricted to
the window map (the tick's emissions are described by `tickLoop` /
`tickEmits`). -/
def stepAgg (m : NodeMap) : AggEvent → NodeMap
  | .sample t d => updateEntry t d m
  | .tick t => m.map fun kw => (kw.1, (tickWindow t kw.2).1)

/-- The window map reached after a trace of events, from the empty map. -/
def runAgg (evs : List AggEvent) : NodeMap :=
  evs.foldl stepAgg []

/-! ## Greenhouse aggregator
(`services/mqtt/greenhouse_sensor/greenhouse_aggregator.rs`) -/

/-- `const STALE_GRACE: Duration = Duration::from_secs(5)`. -/
def STALE_GRACE : ℕ := 5

/-- `struct GhAvg` (greenhouse_aggregator.rs lines 16–34). -/
structure GhAvg where
  greenhouse_id : ℕ
  air_temp_c : Option ℚ
  leaf_temp_c : Option ℚ
  bag_temp_c : Option ℚ
  air_rh_pct : Option ℚ
  bag_rh1_pct : Option ℚ
  bag_rh2_pct : Option ℚ
  bag_rh3_pct : Option ℚ
  bag_rh4_pct : Option ℚ
  bag_rh_avg_pct : Option ℚ
  par_value : Option ℚ
  weight_g : Option ℚ
  ea_air_kpa : Option ℚ
  ea_leaf_kpa : Option ℚ
  es_kpa : Option ℚ
  vpd_kpa : Option ℚ
  nodes : ℕ
  deriving DecidableEq, Repr

/-- `fn acc_opt(v, sum, cnt)` (lines 39–41): accumulate a present value.
(The source additionally checks `is_finite` on the `f64` widening; in this
exact-arithmetic model every present rational is finite, so the check is
always true.) -/
def acc_opt (v : Option ℚ) (sc : ℚ × ℕ) : ℚ × ℕ :=
  match v with
  | some x => (sc.1 + x, sc.2 + 1)
  | none => sc

/-- The `acc_field!` macro body (lines 82–88): fold `acc_opt` of one field
over the fresh snapshots, then `mean(s, c)`. -/
def accField (proj : NodeAvg → Option ℚ) (fresh : List NodeAvg) : Option ℚ :=
  let sc := fresh.foldl (fun sc v => acc_opt (proj v) sc) (0, 0)
  mean sc.1 sc.2

/-- The per-greenhouse outcome of a tick: the distinct "no fresh node
averages" report (which emits nothing), or an emitted snapshot. -/
inductive GhOutcome where
  | noFresh
  | emit (g : GhAvg)
  deriving DecidableEq, Repr

/-- The fresh subset selected at a tick (lines 73–75): entries whose age is
at most `WINDOW + STALE_GRACE`. -/
def ghFresh (now : ℕ) (entries : List NodeAvg) : List NodeAvg :=
  entries.filter fun v => now - v.atT ≤ WINDOW + STALE_GRACE

/-- One greenhouse's share of the tick of `run_greenhouse_avg`
(lines 70–134): filter the stored per-node snapshots for freshness; with
zero fresh entries print the distinct no-fresh report and emit nothing
(`continue`), else build the `GhAvg` of per-field means with the
contributing node count. -/
def ghTickOne (now : ℕ) (gh_id : ℕ) (entries : List NodeAvg) : GhOutcome :=
  let fresh := ghFresh now entries
  let n_nodes := fresh.length
  if n_nodes = 0 then .noFresh
  else
    .emit
      { greenhouse_id := gh_id,
        air_temp_c := accField (·.air_temp_c) fresh,
        leaf_temp_c := accField (·.leaf_temp_c) fresh,
        bag_temp_c := accField (·.bag_temp_c) fresh,
        air_rh_pct := accField (·.air_rh_pct) fresh,
        bag_rh1_pct := accField (·.bag_rh1_pct) fresh,
        bag_rh2_pct := accField (·.bag_rh2_pct) fresh,
        bag_rh3_pct := accField (·.bag_rh3_pct) fresh,
        bag_rh4_pct := accField (·.bag_rh4_pct) fresh,
        bag_rh_avg_pct := accField (·.bag_rh_avg_pct) fresh,
        par_value := accField (·.par_value) fresh,
        weight_g := accField (·.weight_g) fresh,
        ea_air_kpa := accField (·.ea_air_kpa) fresh,
        ea_leaf_kpa := accField (·.ea_leaf_kpa) fresh,
        es_kpa := accField (·.es_kpa) fresh,
        vpd_kpa := accField (·.vpd_kpa) fresh,
        nodes := n_nodes }

/-- `GHState.nodes.insert(na.node_id, na)` (lines 66–69): last-write-wins
per node id. -/
def ghInsert (na : NodeAvg) : List (ℕ × NodeAvg) → List (ℕ × NodeAvg)
  | [] => [(na.node_id, na)]
  | (k, v) :: rest =>
      if k = na.node_id then (k, na) :: rest else (k, v) :: ghInsert na rest

/-! ## Storage writer (`services/storage/sqlite.rs`) -/

/-- `f64::round`: nearest integer, ties away from zero. -/
def rustRound (q : ℚ) : ℤ :=
  if 0 ≤ q then ⌊q + 1/2⌋ else -⌊-q + 1/2⌋

/-- The rounding core of `fn r2` (sqlite.rs line 20):
`((x as f64) * 100.0).round() / 100.0`. -/
def r2q (q : ℚ) : ℚ := (rustRound (q * 100) : ℚ) / 100

/-- `fn r2(v: Option<f32>) -> Option<f64>`: round to two decimals at the
storage boundary, preserving absence. -/
def r2 (v : Option ℚ) : Option ℚ := v.map r2q

/-- A row of the `node_values` fact table (schema lines 68–79): only the
columns the claims speak about; `node` is the `node_name` rowid. -/
structure NodeFactRow where
  ts : ℤ
  node : ℕ
  sensor : ℕ
  value : Option ℚ
  agg : String
  window_sec : ℕ
  deriving DecidableEq, Repr

/-- A row of the `greenhouse_average` fact table (schema lines 47–59). -/
structure GhFactRow where
  ts : ℤ
  gh : ℕ
  sensor : ℕ
  value : Option ℚ
  nodes : ℕ
  agg : String
  window_sec : ℕ
  deriving DecidableEq, Repr

/-- The uniqueness key `UNIQUE(ts_ms, node_id, sensor_type_id, agg)` of
`node_values`. -/
def nodeKey (r : NodeFactRow) : ℤ × ℕ × ℕ × String :=
  (r.ts, r.node, r.sensor, r.agg)

/-- The uniqueness key `UNIQUE(ts_ms, greenhouse_id, sensor_type_id, agg)`
of `greenhouse_average`. -/
def ghKey (r : GhFactRow) : ℤ × ℕ × ℕ × String :=
  (r.ts, r.gh, r.sensor, r.agg)

/-- `INSERT OR IGNORE` into `node_values`: under the uniqueness constraint
the row is appended only when no stored row carries the same key. -/
def insertNodeRow (t : List NodeFactRow) (r : NodeFactRow) :
    List NodeFactRow :=
  if t.any fun r0 => decide (nodeKey r0 = nodeKey r) then t else t ++ [r]

/-- `INSERT OR IGNORE` into `greenhouse_average`. -/
def insertGhRow (t : List GhFactRow) (r : GhFactRow) : List GhFactRow :=
  if t.any fun r0 => decide (ghKey r0 = ghKey r) then t else t ++ [r]

/-- The database state: the five tables of `open_and_init`
(sqlite.rs lines 38–83).  `sensor_type` and `node_name` rowids are list
positions; catalog keys are unique by construction of the ensure functions. -/
structure DB where
  greenhouse_id : List ℕ
  sensor_type : List (String × String)
  node_name : List ((ℕ × ℕ) × String)
  node_values : List NodeFactRow
  greenhouse_average : List GhFactRow
  deriving Repr

/-- The empty database right after `open_and_init` on a fresh file. -/
def DB.empty : DB :=
  { greenhouse_id := [], sensor_type := [], node_name := [],
    node_values := [], greenhouse_average := [] }

/-- `fn ensure_greenhouse` (lines 88–91): `INSERT OR IGNORE` of the id. -/
def ensure_greenhouse (db : DB) (gh : ℕ) : DB :=
  if gh ∈ db.greenhouse_id then db
  else { db with greenhouse_id := db.greenhouse_id ++ [gh] }

/-- `fn ensure_node` (lines 92–103): ensure the greenhouse, `INSERT OR
IGNORE` the `(greenhouse_id, node_id)` identity row, then `SELECT id`. -/
def ensure_node (db : DB) (gh node : ℕ) (label : String) : DB × ℕ :=
  let db1 := ensure_greenhouse db gh
  match db1.node_name.findIdx? (fun kv => decide (kv.1 = (gh, node))) with
  | some i => (db1, i)
  | none =>
      ({ db1 with node_name := db1.node_name ++ [((gh, node), label)] },
       db1.node_name.length)

/-- `fn ensure_sensor` (lines 104–114): `INSERT OR IGNORE` the catalog row
keyed by `key`, then `SELECT id`. -/
def ensure_sensor (db : DB) (key unit : String) : DB × ℕ :=
  match db.sensor_type.findIdx? (fun kv => decide (kv.1 = key)) with
  | some i => (db, i)
  | none =>
      ({ db with sensor_type := db.sensor_type ++ [(key, unit)] },
       db.sensor_type.length)

/-- `fn label_for` (lines 116–124): the static node-id → label table with
the generic fallback. -/
def label_for (node_id : ℕ) : String :=
  if node_id = 65001 then "Outdoor_Node"
  else if node_id = 1 then "node01" else if node_id = 2 then "node02"
  else if node_id = 3 then "node03" else if node_id = 4 then "node04"
  else if node_id = 5 then "node05" else if node_id = 6 then "node06"
  else if node_id = 7 then "node07" else if node_id = 8 then "node08"
  else if node_id = 9 then "node09" else if node_id = 10 then "node10"
  else if node_id = 11 then "node11" else if node_id = 12 then "node12"
  else "nodeXX"

/-- Which fallible storage operations fail, per batch position: `openFail`,
`beginFail`, `commitFail` model `Connection::open`/`open_and_init`,
`unchecked_transaction` and `commit`; the indexed functions model
`rusqlite` errors of the ensure/insert statements for node snapshot `i`,
field `j` (resp. greenhouse snapshot `i`, field `j`). -/
structure FailEnv where
  openFail : Bool
  beginFail : Bool
  commitFail : Bool
  nodeEnsureFail : ℕ → Bool
  nodeSensorFail : ℕ → ℕ → Bool
  nodeInsertFail : ℕ → ℕ → Bool
  ghGreenhouseFail : ℕ → ℕ → Bool
  ghSensorFail : ℕ → ℕ → Bool
  ghInsertFail : ℕ → ℕ → Bool

/-- The all-success environment. -/
def FailEnv.ok : FailEnv :=
  { openFail := false, beginFail := false, commitFail := false,
    nodeEnsureFail := fun _ => false,
    nodeSensorFail := fun _ _ => false,
    nodeInsertFail := fun _ _ => false,
    ghGreenhouseFail := fun _ _ => false,
    ghSensorFail := fun _ _ => false,
    ghInsertFail := fun _ _ => false }

/-- `fn insert_node_field` (lines 126–139): a failing `ensure_sensor` or a
failing insert is logged and skips exactly this row; otherwise the fact row
is inserted with `INSERT OR IGNORE`, its value rounded by `r2`. -/
def insert_node_field (env : FailEnv) (i j : ℕ) (ts : ℤ) (node_rowid : ℕ)
    (key unit : String) (val : Option ℚ) (db : DB) : DB :=
  if env.nodeSensorFail i j then db
  else
    let es := ensure_sensor db key unit
    if env.nodeInsertFail i j then es.1
    else
      let row : NodeFactRow :=
        { ts, node := node_rowid, sensor := es.2, value := r2 val,
          agg := "rolling_60s", window_sec := 60 }
      { es.1 with node_values := insertNodeRow es.1.node_values row }

/-- `fn insert_gh_field` (lines 141–159). -/
def insert_gh_field (env : FailEnv) (i j : ℕ) (ts : ℤ) (gh : ℕ)
    (key unit : String) (val : Option ℚ) (nodes : ℕ) (db : DB) : DB :=
  if env.ghGreenhouseFail i j then db
  else
    let db1 := ensure_greenhouse db gh
    if env.ghSensorFail i j then db1
    else
      let es := ensure_sensor db1 key unit
      if env.ghInsertFail i j then es.1
      else
        let row : GhFactRow :=
          { ts, gh, sensor := es.2, value := r2 val, nodes,
            agg := "rolling_60s", window_sec := 60 }
        { es.1 with greenhouse_average :=
            insertGhRow es.1.greenhouse_average row }

/-- The fifteen `(key, unit, value)` triples a `NodeAvg` is flushed as
(flush_batch lines 179–193, in source order). -/
def nodeFields (na : NodeAvg) : List (String × String × Option ℚ) :=
  [("air_temp_c", "C", na.air_temp_c),
   ("leaf_temp_c", "C", na.leaf_temp_c),
   ("bag_temp_c", "C", na.bag_temp_c),
   ("air_rh_pct", "%", na.air_rh_pct),
   ("bag_rh1_pct", "%", na.bag_rh1_pct),
   ("bag_rh2_pct", "%", na.bag_rh2_pct),
   ("bag_rh3_pct", "%", na.bag_rh3_pct),
   ("bag_rh4_pct", "%", na.bag_rh4_pct),
   ("bag_rh_avg_pct", "%", na.bag_rh_avg_pct),
   ("par_value", "", na.par_value),
   ("weight_g", "", na.weight_g),
   ("ea_air_kpa", "kPa", na.ea_air_kpa),
   ("ea_leaf_kpa", "kPa", na.ea_leaf_kpa),
   ("es_kpa", "kPa", na.es_kpa),
   ("vpd_kpa", "kPa", na.vpd_kpa)]

/-- The fifteen `(key, unit, value)` triples a `GhAvg` is flushed as
(flush_batch lines 200–214). -/
def ghFields (ga : GhAvg) : List (String × String × Option ℚ) :=
  [("air_temp_c", "C", ga.air_temp_c),
   ("leaf_temp_c", "C", ga.leaf_temp_c),
   ("bag_temp_c", "C", ga.bag_temp_c),
   ("air_rh_pct", "%", ga.air_rh_pct),
   ("bag_rh1_pct", "%", ga.bag_rh1_pct),
   ("bag_rh2_pct", "%", ga.bag_rh2_pct),
   ("bag_rh3_pct", "%", ga.bag_rh3_pct),
   ("bag_rh4_pct", "%", ga.bag_rh4_pct),
   ("bag_rh_avg_pct", "%", ga.bag_rh_avg_pct),
   ("par_value", "", ga.par_value),
   ("weight_g", "", ga.weight_g),
   ("ea_air_kpa", "kPa", ga.ea_air_kpa),
   ("ea_leaf_kpa", "kPa", ga.ea_leaf_kpa),
   ("es_kpa", "kPa", ga.es_kpa),
   ("vpd_kpa", "kPa", ga.vpd_kpa)]

/-- The field loop of the node branch of `flush_batch`: insert the fields
of snapshot `i` in order, `j` counting the field position. -/
def insertNodeFieldsFrom (env : FailEnv) (i : ℕ) (ts : ℤ) (rowid : ℕ) :
    ℕ → List (String × String × Option ℚ) → DB → DB
  | _, [], db => db
  | j, f :: rest, db =>
      insertNodeFieldsFrom env i ts rowid (j+1) rest
        (insert_node_field env i j ts rowid f.1 f.2.1 f.2.2 db)

/-- One node snapshot of the batch (flush_batch lines 176–197): a failing
`ensure_node` is logged and skips the whole snapshot, else the fifteen
fields are inserted. -/
def processNode (env : FailEnv) (i : ℕ) (ts : ℤ) (na : NodeAvg) (db : DB) :
    DB :=
  if env.nodeEnsureFail i then db
  else
    let en := ensure_node db na.greenhouse_id na.node_id
                (label_for na.node_id)
    insertNodeFieldsFrom env i ts en.2 0 (nodeFields na) en.1

/-- `for na in batch_nodes` with `i` the batch position. -/
def processNodes (env : FailEnv) (ts : ℤ) :
    ℕ → List NodeAvg → DB → DB
  | _, [], db => db
  | i, na :: rest, db =>
      processNodes env ts (i+1) rest (processNode env i ts na db)

/-- The field loop of the greenhouse branch of `flush_batch`
(lines 199–215). -/
def insertGhFieldsFrom (env : FailEnv) (i : ℕ) (ts : ℤ) (gh nodes : ℕ) :
    ℕ → List (String × String × Option ℚ) → DB → DB
  | _, [], db => db
  | j, f :: rest, db =>
      insertGhFieldsFrom env i ts gh nodes (j+1) rest
        (insert_gh_field env i j ts gh f.1 f.2.1 f.2.2 nodes db)

/-- `for ga in batch_gh` with `i` the batch position. -/
def processGhs (env : FailEnv) (ts : ℤ) :
    ℕ → List GhAvg → DB → DB
  | _, [], db => db
  | i, ga :: rest, db =>
      processGhs env ts (i+1) rest
        (insertGhFieldsFrom env i ts ga.greenhouse_id ga.nodes 0
          (ghFields ga) db)

/-- `fn flush_batch` (sqlite.rs lines 163–220): nothing to do for an empty
batch; a failed open or failed `unchecked_transaction` returns with the
database untouched; otherwise all inserts run inside one transaction whose
effects become durable only if `commit` succeeds — a failed commit discards
the entire batch.  `ts` is the single `now_ms()` wall-clock millisecond
stamp taken once at the start of the flush (line 174), used for every row
of the batch. -/
def flush_batch (env : FailEnv) (ts : ℤ) (db : DB)
    (batch_nodes : List NodeAvg) (batch_gh : List GhAvg) : DB :=
  if batch_nodes = [] ∧ batch_gh = [] then db
  else if env.openFail then db
  else if env.beginFail then db
  else
    let db1 := processNodes env ts 0 batch_nodes db
    let db2 := processGhs env ts 0 batch_gh db1
    if env.commitFail then db else db2

/-! ## Specification-side definitions

These follow the wording of the spec ("the arithmetic mean of each field
across the remaining buffer, skipping non-finite entries; a field with zero
finite observations yields an absent mean"), to be compared with the
source-side accumulator definitions above. -/

/-- The finite observations among a list of float values. -/
def finiteVals (vs : List FVal) : List ℚ :=
  vs.filterMap fun v =>
    match v with
    | .fin q => some q
    | .nonfin => none

/-- Spec-side optional mean: absent for zero observations, never zero. -/
def optMean (l : List ℚ) : Option ℚ :=
  if l = [] then none else some (l.sum / l.length)

/-! ## Helper lemmas -/

theorem rd_u16_le_isSome (p : List ℕ) (o : ℕ) (h : o + 2 ≤ p.length) :
    ∃ v, rd_u16_le p o = some v := by
  rw [rd_u16_le, if_pos h]
  exact ⟨_, rfl⟩

theorem rd_f32_le_isSome (p : List ℕ) (o : ℕ) (h : o + 4 ≤ p.length) :
    ∃ v, rd_f32_le p o = some v := by
  have h0 : o < p.length := by omega
  have h1 : o + 1 < p.length := by omega
  have h2 : o + 2 < p.length := by omega
  have h3 : o + 3 < p.length := by omega
  simp only [rd_f32_le, List.getElem?_eq_getElem, h0, h1, h2, h3,
    Option.some_bind]
  exact ⟨_, rfl⟩

theorem sumCnt_go (vs : List FVal) (s : ℚ) (c : ℕ) :
    vs.foldl (fun sc v => acc v sc) (s, c)
      = (s + (finiteVals vs).sum, c + (finiteVals vs).length) := by
  induction vs generalizing s c with
  | nil => simp [finiteVals]
  | cons v rest ih =>
      cases v with
      | fin q =>
          show List.foldl (fun sc v => acc v sc) (s + q, c + 1) rest = _
          rw [ih]
          have hf : finiteVals (FVal.fin q :: rest) = q :: finiteVals rest :=
            rfl
          rw [hf, List.sum_cons, List.length_cons]
          simp only [Prod.mk.injEq]
          exact ⟨by ring, by omega⟩
      | nonfin =>
          show List.foldl (fun sc v => acc v sc) (s, c) rest = _
          rw [ih]
          rfl

theorem sumCnt_eq (vs : List FVal) :
    sumCnt vs = ((finiteVals vs).sum, (finiteVals vs).length) := by
  unfold sumCnt
  rw [sumCnt_go]
  simp

theorem mean_eq_optMean (l : List ℚ) :
    mean l.sum l.length = optMean l := by
  unfold mean optMean
  rcases eq_or_ne l [] with h | h
  · simp [h]
  · rw [if_neg h, if_neg]
    simpa [List.length_eq_zero] using h

theorem meanStd_eq_optMean (proj : StandardData → FVal)
    (buf : List TimedSample) :
    meanStd proj buf = optMean (finiteVals (stdVals proj buf)) := by
  unfold meanStd
  rw [sumCnt_eq, ← mean_eq_optMean]

theorem meanOut_eq_optMean (proj : OutdoorData → FVal)
    (buf : List TimedSample) :
    meanOut proj buf = optMean (finiteVals (outVals proj buf)) := by
  unfold meanOut
  rw [sumCnt_eq, ← mean_eq_optMean]

theorem accField_go (proj : NodeAvg → Option ℚ) (l : List NodeAvg)
    (s : ℚ) (c : ℕ) :
    l.foldl (fun sc v => acc_opt (proj v) sc) (s, c)
      = (s + (l.filterMap proj).sum, c + (l.filterMap proj).length) := by
  induction l generalizing s c with
  | nil => simp
  | cons v rest ih =>
      rw [List.foldl_cons]
      cases hv : proj v with
      | none =>
          have hstep : acc_opt (none : Option ℚ) (s, c) = (s, c) := rfl
          rw [hstep, ih]
          simp only [List.filterMap_cons, hv]
      | some x =>
          have hstep : acc_opt (some x) (s, c) = (s + x, c + 1) := rfl
          rw [hstep, ih]
          simp only [List.filterMap_cons, hv, List.sum_cons,
            List.length_cons, Prod.mk.injEq]
          exact ⟨by ring, by omega⟩

theorem accField_eq_optMean (proj : NodeAvg → Option ℚ)
    (l : List NodeAvg) :
    accField proj l = optMean (l.filterMap proj) := by
  unfold accField
  rw [accField_go, ← mean_eq_optMean]
  simp

/-! ## Claim C1 -/

/-- The C1 counterexample payload: declared node id 65001 at offset 2,
length 23 ≥ 22. -/
def c1buf : List ℕ := [0, 0, 233, 253] ++ List.replicate 19 0

/-- C1 (counterexample): the claim says a payload declaring the reserved
outdoor id 65001 decodes as an Outdoor sample whenever its length is at
least 22; but on this 23-byte payload declaring node id 65001 the decoder
returns `None` — `decode_payload` dispatches on exact length, not on node
id. -/
theorem C1_counterexample :
    c1buf.length = 23 ∧ 22 ≤ c1buf.length ∧
    rd_u16_le c1buf 2 = some OUTDOOR_NODE_ID ∧
    decode_payload c1buf = none := by
  refine ⟨by decide, by decide, by decide, ?_⟩
  decide

/-- C1 (amended): `decode_payload` selects the variant by exact payload
length alone — a 60-byte payload decodes as Standard and a 22-byte payload
decodes as Outdoor whatever their declared node ids, and any other length
(including every length strictly greater than 22 other than 60) yields
`None`; the declared node id is never consulted for dispatch. -/
theorem C1_length_dispatch (p : List ℕ) :
    (p.length = 60 → ∃ d, decode_payload p = some (Decoded.standard d)) ∧
    (p.length = 22 → ∃ d, decode_payload p = some (Decoded.outdoor d)) ∧
    (p.length ≠ 60 → p.length ≠ 22 → decode_payload p = none) := by
  refine ⟨?_, ?_, ?_⟩
  · intro h60
    obtain ⟨v0, e0⟩ := rd_u16_le_isSome p 0 (by omega)
    obtain ⟨v1, e1⟩ := rd_u16_le_isSome p 2 (by omega)
    obtain ⟨v2, e2⟩ := rd_f32_le_isSome p 4 (by omega)
    obtain ⟨v3, e3⟩ := rd_f32_le_isSome p 8 (by omega)
    obtain ⟨v4, e4⟩ := rd_f32_le_isSome p 12 (by omega)
    obtain ⟨v5, e5⟩ := rd_f32_le_isSome p 16 (by omega)
    obtain ⟨v6, e6⟩ := rd_f32_le_isSome p 20 (by omega)
    obtain ⟨v7, e7⟩ := rd_f32_le_isSome p 24 (by omega)
    obtain ⟨v8, e8⟩ := rd_f32_le_isSome p 28 (by omega)
    obtain ⟨v9, e9⟩ := rd_f32_le_isSome p 32 (by omega)
    obtain ⟨v10, e10⟩ := rd_f32_le_isSome p 36 (by omega)
    obtain ⟨v11, e11⟩ := rd_u16_le_isSome p 40 (by omega)
    obtain ⟨v12, e12⟩ := rd_u16_le_isSome p 42 (by omega)
    obtain ⟨v13, e13⟩ := rd_f32_le_isSome p 44 (by omega)
    obtain ⟨v14, e14⟩ := rd_f32_le_isSome p 48 (by omega)
    obtain ⟨v15, e15⟩ := rd_f32_le_isSome p 52 (by omega)
    obtain ⟨v16, e16⟩ := rd_f32_le_isSome p 56 (by omega)
    refine ⟨⟨v0, v1, v2, v3, v4, v5, v6, v7, v8, v9, v10, v11, v12, v13,
      v14, v15, v16⟩, ?_⟩
    simp only [decode_payload, h60, if_true, e0, e1, e2, e3, e4, e5, e6, e7,
      e8, e9, e10, e11, e12, e13, e14, e15, e16, reduceIte]
  · intro h22
    obtain ⟨v0, e0⟩ := rd_u16_le_isSome p 0 (by omega)
    obtain ⟨v1, e1⟩ := rd_u16_le_isSome p 2 (by omega)
    obtain ⟨v2, e2⟩ := rd_f32_le_isSome p 4 (by omega)
    obtain ⟨v3, e3⟩ := rd_f32_le_isSome p 8 (by omega)
    obtain ⟨v4, e4⟩ := rd_u16_le_isSome p 12 (by omega)
    obtain ⟨v5, e5⟩ := rd_f32_le_isSome p 14 (by omega)
    obtain ⟨v6, e6⟩ := rd_f32_le_isSome p 18 (by omega)
    refine ⟨⟨v0, v1, v2, v3, v4, v5, v6⟩, ?_⟩
    have hne : p.length ≠ 60 := by omega
    simp only [decode_payload, h22, if_neg hne, if_true, e0, e1, e2, e3, e4,
      e5, e6, reduceIte]
    rfl
  · intro h1 h2
    unfold decode_payload
    rw [if_neg h1, if_neg h2]

/-- Closed witness for `C1_length_dispatch` at three concrete payloads. -/
theorem C1_length_dispatch_witness :
    (∃ d, decode_payload (List.replicate 60 0) = some (Decoded.standard d)) ∧
    (∃ d, decode_payload (List.replicate 22 0) = some (Decoded.outdoor d)) ∧
    decode_payload (List.replicate 23 0) = none :=
  ⟨(C1_length_dispatch (List.replicate 60 0)).1 (by decide),
   (C1_length_dispatch (List.replicate 22 0)).2.1 (by decide),
   (C1_length_dispatch (List.replicate 23 0)).2.2 (by decide) (by decide)⟩

/-! ## Claim C6 -/

/-- The C6 counterexample payload: declared node id 1 (not the reserved
outdoor id), length 22. -/
def c6buf : List ℕ := [0, 0, 1, 0] ++ List.replicate 18 0

/-- C6 (counterexample): the claim says a payload shorter than its
variant's minimum length decodes to `None`; this 22-byte payload declares
node id 1, which is not the reserved outdoor id — per the claimed node-id
dispatch it is a Standard payload shorter than 60 bytes — yet
`decode_payload` successfully returns an Outdoor sample for it. -/
theorem C6_counterexample :
    c6buf.length = 22 ∧ c6buf.length < 60 ∧
    rd_u16_le c6buf 2 = some 1 ∧ (1 : ℕ) ≠ OUTDOOR_NODE_ID ∧
    decode_payload c6buf
      = some (Decoded.outdoor
          { greenhouse_id := 0, node_id := 1, air_temp_c := .fin 0,
            air_rh_pct := .fin 0, par_value := 0, ea_air_kpa := .fin 0,
            es_kpa := .fin 0 }) := by
  refine ⟨by decide, by decide, by decide, by decide, ?_⟩
  decide

/-- C6 (amended): every payload whose length is neither exactly 60 nor
exactly 22 — in particular every payload shorter than 22 bytes, the minimum
over both variants — yields a decode failure (`None`); every byte access of
the decoder is bounds-checked (`rd_u16_le` / `rd_f32_le` return `None`
rather than read past the end), and `decode_payload` is a total function
over all byte buffers, so no input raises a fatal error. -/
theorem C6_undersized_fails (p : List ℕ) (o : ℕ) :
    (p.length < 22 → decode_payload p = none) ∧
    (p.length ≠ 60 → p.length ≠ 22 → decode_payload p = none) ∧
    (p.length ≤ o + 1 → rd_u16_le p o = none) ∧
    (p.length ≤ o + 3 → rd_f32_le p o = none) := by
  refine ⟨?_, ?_, ?_, ?_⟩
  · intro h
    unfold decode_payload
    rw [if_neg (by omega), if_neg (by omega)]
  · intro h1 h2
    unfold decode_payload
    rw [if_neg h1, if_neg h2]
  · intro h
    rw [rd_u16_le, if_neg (by omega)]
  · intro h
    have h3 : p[o+3]? = none := by
      rw [List.getElem?_eq_none_iff]
      omega
    cases e0 : p[o]? with
    | none => simp [rd_f32_le, e0]
    | some a =>
        cases e1 : p[o+1]? with
        | none => simp [rd_f32_le, e0, e1]
        | some b =>
            cases e2 : p[o+2]? with
            | none => simp [rd_f32_le, e0, e1, e2]
            | some c => simp [rd_f32_le, e0, e1, e2, h3]

/-- Closed witness for `C6_undersized_fails` at concrete inputs. -/
theorem C6_undersized_fails_witness :
    decode_payload [1, 2, 3] = none ∧
    decode_payload (List.replicate 59 7) = none ∧
    rd_u16_le [5] 0 = none ∧
    rd_f32_le [5, 6, 7] 0 = none :=
  ⟨(C6_undersized_fails [1, 2, 3] 0).1 (by decide),
   (C6_undersized_fails (List.replicate 59 7) 0).2.1 (by decide) (by decide),
   (C6_undersized_fails [5] 0).2.2.1 (by decide),
   (C6_undersized_fails [5, 6, 7] 0).2.2.2 (by decide)⟩

/-! ## Claim C3 -/

/-- C3: every field of a `NodeAvg` computed at a tick is `some` of the
arithmetic mean of exactly the finite observations of that field among the
in-window (re-pruned) samples matching the window's variant kind, and is
`None` — never zero — when there are no such finite observations
(`optMean` is absent on the empty observation list by definition).  For a
Standard window all fifteen fields are such means; for an Outdoor window
the five outdoor fields are means and the ten fields with no outdoor
observations are absent. -/
theorem C3_field_means (now : ℕ) (w : NodeWindow) (na : NodeAvg) :
    ((tickWindow now w).2 = some na → w.kind = NodeKind.standard →
      let buf := pruneOld now w.buf
      na.air_temp_c = optMean (finiteVals (stdVals (·.air_temp_c) buf)) ∧
      na.leaf_temp_c = optMean (finiteVals (stdVals (·.leaf_temp_c) buf)) ∧
      na.bag_temp_c = optMean (finiteVals (stdVals (·.bag_temp_c) buf)) ∧
      na.air_rh_pct = optMean (finiteVals (stdVals (·.air_rh_pct) buf)) ∧
      na.bag_rh1_pct = optMean (finiteVals (stdVals (·.bag_rh1_pct) buf)) ∧
      na.bag_rh2_pct = optMean (finiteVals (stdVals (·.bag_rh2_pct) buf)) ∧
      na.bag_rh3_pct = optMean (finiteVals (stdVals (·.bag_rh3_pct) buf)) ∧
      na.bag_rh4_pct = optMean (finiteVals (stdVals (·.bag_rh4_pct) buf)) ∧
      na.bag_rh_avg_pct
        = optMean (finiteVals (stdVals (·.bag_rh_avg_pct) buf)) ∧
      na.par_value
        = optMean (finiteVals (stdVals (fun d => .fin d.par_value) buf)) ∧
      na.weight_g
        = optMean (finiteVals (stdVals (fun d => .fin d.weight_g) buf)) ∧
      na.ea_air_kpa = optMean (finiteVals (stdVals (·.ea_air_kpa) buf)) ∧
      na.ea_leaf_kpa = optMean (finiteVals (stdVals (·.ea_leaf_kpa) buf)) ∧
      na.es_kpa = optMean (finiteVals (stdVals (·.es_kpa) buf)) ∧
      na.vpd_kpa = optMean (finiteVals (stdVals (·.vpd_kpa) buf))) ∧
    ((tickWindow now w).2 = some na → w.kind = NodeKind.outdoor →
      let buf := pruneOld now w.buf
      na.air_temp_c = optMean (finiteVals (outVals (·.air_temp_c) buf)) ∧
      na.air_rh_pct = optMean (finiteVals (outVals (·.air_rh_pct) buf)) ∧
      na.par_value
        = optMean (finiteVals (outVals (fun d => .fin d.par_value) buf)) ∧
      na.ea_air_kpa = optMean (finiteVals (outVals (·.ea_air_kpa) buf)) ∧
      na.es_kpa = optMean (finiteVals (outVals (·.es_kpa) buf)) ∧
      na.leaf_temp_c = none ∧ na.bag_temp_c = none ∧
      na.bag_rh1_pct = none ∧ na.bag_rh2_pct = none ∧
      na.bag_rh3_pct = none ∧ na.bag_rh4_pct = none ∧
      na.bag_rh_avg_pct = none ∧ na.weight_g = none ∧
      na.ea_leaf_kpa = none ∧ na.vpd_kpa = none) := by
  constructor
  · intro hemit hkind
    have hna : na = mkStandardAvg w.ids now (pruneOld now w.buf) := by
      unfold tickWindow at hemit
      by_cases hz : (pruneOld now w.buf).length = 0
      · simp only [hz, if_true] at hemit
        cases hemit
      · simp only [hz, if_false, hkind] at hemit
        exact Option.some_injective _ hemit.symm
    rw [hna]
    unfold mkStandardAvg
    refine ⟨?_, ?_, ?_, ?_, ?_, ?_, ?_, ?_, ?_, ?_, ?_, ?_, ?_, ?_, ?_⟩ <;>
      exact meanStd_eq_optMean _ _
  · intro hemit hkind
    have hna : na = mkOutdoorAvg w.ids now (pruneOld now w.buf) := by
      unfold tickWindow at hemit
      by_cases hz : (pruneOld now w.buf).length = 0
      · simp only [hz, if_true] at hemit
        cases hemit
      · simp only [hz, if_false, hkind] at hemit
        exact Option.some_injective _ hemit.symm
    rw [hna]
    unfold mkOutdoorAvg
    exact ⟨meanOut_eq_optMean _ _, meanOut_eq_optMean _ _,
      meanOut_eq_optMean _ _, meanOut_eq_optMean _ _, meanOut_eq_optMean _ _,
      rfl, rfl, rfl, rfl, rfl, rfl, rfl, rfl, rfl, rfl⟩

/-- A concrete Standard sample for witnesses: `air_temp_c` is the given
finite value, `leaf_temp_c` is non-finite (NaN), the rest are small finite
constants. -/
def sampleStd (t : ℕ) (v : ℚ) : TimedSample :=
  { atT := t,
    data := .standard
      { greenhouse_id := 1, node_id := 2, air_temp_c := .fin v,
        leaf_temp_c := .nonfin, bag_temp_c := .fin 3, air_rh_pct := .fin 4,
        bag_rh1_pct := .fin 5, bag_rh2_pct := .fin 6, bag_rh3_pct := .fin 7,
        bag_rh4_pct := .fin 8, bag_rh_avg_pct := .fin 9, par_value := 10,
        weight_g := 11, ea_air_kpa := .fin 12, ea_leaf_kpa := .fin 13,
        es_kpa := .fin 14, vpd_kpa := .fin 15 } }

/-- A concrete Standard window holding samples 20 °C and 22 °C. -/
def w0 : NodeWindow :=
  { kind := .standard, ids := (1, 2),
    buf := [sampleStd 50 20, sampleStd 60 22], lastPrune := 60 }

/-- The snapshot `w0` emits at a tick at instant 100. -/
def naC3 : NodeAvg := mkStandardAvg (1, 2) 100 (pruneOld 100 w0.buf)

/-- Closed witness for `C3_field_means`: at tick instant 100 the window
`w0` emits a snapshot whose air-temperature mean is `some 21` (mean of 20
and 22) and whose leaf-temperature mean is absent (both observations are
non-finite), not zero. -/
theorem C3_field_means_witness :
    (tickWindow 100 w0).2 = some naC3 ∧
    naC3.air_temp_c = some 21 ∧ naC3.leaf_temp_c = none := by
  have h := (C3_field_means 100 w0 naC3).1 rfl rfl
  have hbuf : pruneOld 100 w0.buf = w0.buf := by decide
  simp only [hbuf] at h
  obtain ⟨h1, h2, -⟩ := h
  have e1 : stdVals (fun x => x.air_temp_c) w0.buf
      = [FVal.fin 20, FVal.fin 22] := by decide
  have e2 : stdVals (fun x => x.leaf_temp_c) w0.buf
      = [FVal.nonfin, FVal.nonfin] := by decide
  have f1 : finiteVals [FVal.fin 20, FVal.fin 22] = [20, 22] := by decide
  have f2 : finiteVals [FVal.nonfin, FVal.nonfin] = [] := by decide
  refine ⟨rfl, ?_, ?_⟩
  · rw [h1, e1, f1]
    unfold optMean
    rw [if_neg (by simp)]
    norm_num
  · rw [h2, e2, f2]
    rfl

/-! ## Claim C4 -/

/-- C4: at a `GreenhouseAggregator` tick, a stored `NodeAvg` entry is fresh
exactly when its age at the tick instant is at most `WINDOW + STALE_GRACE`
(= 65 s); with zero fresh entries the tick yields the distinct
`GhOutcome.noFresh` report — no `GhAvg` is emitted; otherwise it yields
exactly one emitted `GhAvg` whose `greenhouse_id` is the greenhouse's,
whose per-field value is the mean over the fresh entries in which the field
is present (in this exact-arithmetic model every present value is finite),
and whose `nodes` count equals the number of fresh entries. -/
theorem C4_greenhouse_tick (now gh_id : ℕ) (entries : List NodeAvg) :
    WINDOW + STALE_GRACE = 65 ∧
    (∀ v, v ∈ ghFresh now entries
        ↔ v ∈ entries ∧ now - v.atT ≤ WINDOW + STALE_GRACE) ∧
    (ghFresh now entries = [] →
      ghTickOne now gh_id entries = GhOutcome.noFresh) ∧
    (ghFresh now entries ≠ [] →
      ∃ g, ghTickOne now gh_id entries = GhOutcome.emit g ∧
        g.greenhouse_id = gh_id ∧
        g.nodes = (ghFresh now entries).length ∧
        g.air_temp_c
          = optMean ((ghFresh now entries).filterMap (·.air_temp_c)) ∧
        g.leaf_temp_c
          = optMean ((ghFresh now entries).filterMap (·.leaf_temp_c)) ∧
        g.bag_temp_c
          = optMean ((ghFresh now entries).filterMap (·.bag_temp_c)) ∧
        g.air_rh_pct
          = optMean ((ghFresh now entries).filterMap (·.air_rh_pct)) ∧
        g.bag_rh1_pct
          = optMean ((ghFresh now entries).filterMap (·.bag_rh1_pct)) ∧
        g.bag_rh2_pct
          = optMean ((ghFresh now entries).filterMap (·.bag_rh2_pct)) ∧
        g.bag_rh3_pct
          = optMean ((ghFresh now entries).filterMap (·.bag_rh3_pct)) ∧
        g.bag_rh4_pct
          = optMean ((ghFresh now entries).filterMap (·.bag_rh4_pct)) ∧
        g.bag_rh_avg_pct
          = optMean ((ghFresh now entries).filterMap (·.bag_rh_avg_pct)) ∧
        g.par_value
          = optMean ((ghFresh now entries).filterMap (·.par_value)) ∧
        g.weight_g
          = optMean ((ghFresh now entries).filterMap (·.weight_g)) ∧
        g.ea_air_kpa
          = optMean ((ghFresh now entries).filterMap (·.ea_air_kpa)) ∧
        g.ea_leaf_kpa
          = optMean ((ghFresh now entries).filterMap (·.ea_leaf_kpa)) ∧
        g.es_kpa
          = optMean ((ghFresh now entries).filterMap (·.es_kpa)) ∧
        g.vpd_kpa
          = optMean ((ghFresh now entries).filterMap (·.vpd_kpa))) := by
  refine ⟨rfl, ?_, ?_, ?_⟩
  · intro v
    simp [ghFresh, List.mem_filter]
  · intro h
    unfold ghTickOne
    rw [h]
    rfl
  · intro h
    have hlen : (ghFresh now entries).length ≠ 0 := by
      simpa [List.length_eq_zero] using h
    simp only [ghTickOne]
    rw [if_neg hlen]
    refine ⟨_, rfl, rfl, rfl, ?_⟩
    refine ⟨?_, ?_, ?_, ?_, ?_, ?_, ?_, ?_, ?_, ?_, ?_, ?_, ?_, ?_, ?_⟩ <;>
      exact accField_eq_optMean _ _

/-- A concrete stored `NodeAvg` entry captured at instant 40. -/
def naC4 : NodeAvg :=
  { greenhouse_id := 1, node_id := 2, atT := 40, air_temp_c := some 20,
    leaf_temp_c := none, bag_temp_c := none, air_rh_pct := some 50,
    bag_rh1_pct := none, bag_rh2_pct := none, bag_rh3_pct := none,
    bag_rh4_pct := none, bag_rh_avg_pct := none, par_value := none,
    weight_g := none, ea_air_kpa := none, ea_leaf_kpa := none,
    es_kpa := none, vpd_kpa := none }

/-- Closed witness for `C4_greenhouse_tick`: at tick instant 100 a
greenhouse with no stored entries reports `noFresh`, and a greenhouse whose
only entry is 60 s old (within the 65 s bound) emits a snapshot with that
entry's means and `nodes = 1`. -/
theorem C4_greenhouse_tick_witness :
    ghTickOne 100 7 [] = GhOutcome.noFresh ∧
    ∃ g, ghTickOne 100 1 [naC4] = GhOutcome.emit g ∧
      g.greenhouse_id = 1 ∧ g.nodes = (ghFresh 100 [naC4]).length ∧
      g.air_temp_c = optMean ((ghFresh 100 [naC4]).filterMap (·.air_temp_c)) :=
  ⟨(C4_greenhouse_tick 100 7 []).2.2.1 rfl,
   match (C4_greenhouse_tick 100 1 [naC4]).2.2.2 (by decide) with
   | ⟨g, h1, h2, h3, h4, _⟩ => ⟨g, h1, h2, h3, h4⟩⟩

/-! ## Claim C2 -/

theorem tickWindow_fst (now : ℕ) (w : NodeWindow) :
    (tickWindow now w).1
      = { w with buf := pruneOld now w.buf, lastPrune := now } := by
  unfold tickWindow
  by_cases hz : (pruneOld now w.buf).length = 0
  · rw [if_pos hz]
  · rw [if_neg hz]
    cases w.kind <;> rfl

theorem tickWindow_ids (now : ℕ) (w : NodeWindow) (na : NodeAvg)
    (h : (tickWindow now w).2 = some na) :
    (na.greenhouse_id, na.node_id) = w.ids := by
  unfold tickWindow at h
  by_cases hz : (pruneOld now w.buf).length = 0
  · rw [if_pos hz] at h
    cases h
  · rw [if_neg hz] at h
    cases hk : w.kind <;> rw [hk] at h <;>
      (cases h; exact rfl)

theorem tickWindow_none_iff (now : ℕ) (w : NodeWindow) :
    (tickWindow now w).2 = none ↔ (pruneOld now w.buf).length = 0 := by
  unfold tickWindow
  by_cases hz : (pruneOld now w.buf).length = 0
  · rw [if_pos hz]
    simpa using hz
  · rw [if_neg hz]
    cases w.kind <;> simpa using hz

theorem tickLoop_snd (now : ℕ) (m : NodeMap) (qdb qgh : BQueue NodeAvg) :
    (tickLoop now m qdb qgh).2.1 = (tickEmits now m).foldl trySend qdb ∧
    (tickLoop now m qdb qgh).2.2 = (tickEmits now m).foldl trySend qgh ∧
    (tickLoop now m qdb qgh).1
      = m.map fun kw => (kw.1, (tickWindow now kw.2).1) := by
  induction m generalizing qdb qgh with
  | nil => exact ⟨rfl, rfl, rfl⟩
  | cons kw rest ih =>
      obtain ⟨k, w⟩ := kw
      show (tickLoop now ((k, w) :: rest) qdb qgh).2.1 = _ ∧ _ ∧ _
      rw [tickLoop, tickEmits, List.filterMap_cons]
      cases he : (tickWindow now w).2 with
      | none =>
          simp only []
          exact ⟨(ih _ _).1, (ih _ _).2.1, by
            rw [List.map_cons, ← (ih qdb qgh).2.2]⟩
      | some na =>
          simp only [List.foldl_cons]
          exact ⟨(ih _ _).1, (ih _ _).2.1, by
            rw [List.map_cons, ← (ih (trySend qdb na) (trySend qgh na)).2.2]⟩

theorem tickEmits_count_zero (now : ℕ) (m : NodeMap) (k : ℕ × ℕ)
    (hids : ∀ kw ∈ m, kw.2.ids = kw.1)
    (hk : k ∉ m.map Prod.fst) :
    ((tickEmits now m).filter
        (fun na => decide ((na.greenhouse_id, na.node_id) = k))).length
      = 0 := by
  induction m with
  | nil => rfl
  | cons kw rest ih =>
      rw [tickEmits, List.filterMap_cons]
      cases he : (tickWindow now kw.2).2 with
      | none =>
          exact ih (fun e he2 => hids e (List.mem_cons_of_mem _ he2))
            (fun hmem => hk (by simp [hmem]))
      | some na =>
          have hid : (na.greenhouse_id, na.node_id) = kw.1 := by
            rw [tickWindow_ids now kw.2 na he, hids kw (List.mem_cons_self _ _)]
          have hne : (na.greenhouse_id, na.node_id) ≠ k := by
            rw [hid]
            intro hkk
            exact hk (by simp [← hkk])
          rw [List.filter_cons_of_neg (by simpa using hne)]
          exact ih (fun e he2 => hids e (List.mem_cons_of_mem _ he2))
            (fun hmem => hk (by simp [hmem]))

theorem tickEmits_count (now : ℕ) (m : NodeMap)
    (hnodup : (m.map Prod.fst).Nodup)
    (hids : ∀ kw ∈ m, kw.2.ids = kw.1) :
    ∀ k w, (k, w) ∈ m →
      ((tickEmits now m).filter
          (fun na => decide ((na.greenhouse_id, na.node_id) = k))).length
        = if (pruneOld now w.buf).length = 0 then 0 else 1 := by
  induction m with
  | nil => intro k w h; cases h
  | cons kw rest ih =>
      intro k w hmem
      have hidsrest : ∀ e ∈ rest, e.2.ids = e.1 :=
        fun e he => hids e (List.mem_cons_of_mem _ he)
      have hnodup2 : (rest.map Prod.fst).Nodup := (List.nodup_cons.mp hnodup).2
      have hknotin : kw.1 ∉ rest.map Prod.fst := (List.nodup_cons.mp hnodup).1
      rcases List.mem_cons.mp hmem with heq | hrest
      · -- the entry is the head
        subst heq
        rw [tickEmits, List.filterMap_cons]
        cases he : (tickWindow now w).2 with
        | none =>
            rw [(tickWindow_none_iff now w).mp he, if_pos rfl]
            exact tickEmits_count_zero now rest (k, w).1 hidsrest hknotin
        | some na =>
            have hz : ¬ (pruneOld now w.buf).length = 0 := by
              intro hz
              rw [← tickWindow_none_iff now w] at hz
              rw [he] at hz
              cases hz
            rw [if_neg hz]
            have hid : (na.greenhouse_id, na.node_id) = (k, w).1 := by
              rw [tickWindow_ids now w na he,
                hids (k, w) (List.mem_cons_self _ _)]
            rw [List.filter_cons_of_pos (by simpa using hid),
              List.length_cons,
              show List.filterMap (fun kw => (tickWindow now kw.2).2) rest
                = tickEmits now rest from rfl,
              tickEmits_count_zero now rest (k, w).1 hidsrest hknotin]
      · -- the entry is in the tail
        have hkne : kw.1 ≠ k := by
          intro hkk
          exact hknotin (by
            rw [hkk]
            exact List.mem_map_of_mem Prod.fst hrest)
        rw [tickEmits, List.filterMap_cons]
        cases he : (tickWindow now kw.2).2 with
        | none => exact ih hnodup2 hidsrest k w hrest
        | some na =>
            have hid : (na.greenhouse_id, na.node_id) = kw.1 :=
              (tickWindow_ids now kw.2 na he).trans
                (by rw [hids kw (List.mem_cons_self _ _)])
            rw [List.filter_cons_of_neg
              (by simp [hid, hkne])]
            exact ih hnodup2 hidsrest k w hrest

/-- C2: on a tick of `run_rolling_avg` at instant `now`, the DB-bound and
greenhouse-bound queues each receive, via non-blocking `trySend`, exactly
the tick's emitted snapshots (independent folds — a full queue drops the
snapshot for that destination only, as the `trySend` characterization
states); the window map keeps the re-pruned windows; each stored key with a
non-empty re-pruned window contributes exactly one snapshot carrying its
ids, and a key whose window re-prunes to empty contributes none; and the
tick schedule is the fixed `WINDOW` period (60 s) with the first processed
tick deferred one full period after start. -/
theorem C2_tick_behaviour (now : ℕ) (m : NodeMap)
    (qdb qgh : BQueue NodeAvg) :
    (tickLoop now m qdb qgh).2.1 = (tickEmits now m).foldl trySend qdb ∧
    (tickLoop now m qdb qgh).2.2 = (tickEmits now m).foldl trySend qgh ∧
    (tickLoop now m qdb qgh).1
      = (m.map fun kw => (kw.1, (tickWindow now kw.2).1)) ∧
    ((m.map Prod.fst).Nodup → (∀ kw ∈ m, kw.2.ids = kw.1) →
      ∀ k w, (k, w) ∈ m →
        ((tickEmits now m).filter
            (fun na => decide ((na.greenhouse_id, na.node_id) = k))).length
          = if (pruneOld now w.buf).length = 0 then 0 else 1) ∧
    (∀ (q : BQueue NodeAvg) a, q.items.length < q.cap →
        trySend q a = { q with items := q.items ++ [a] }) ∧
    (∀ (q : BQueue NodeAvg) a, ¬ q.items.length < q.cap →
        trySend q a = q) ∧
    tickInstant 0 = WINDOW ∧
    (∀ n, tickInstant (n + 1) = tickInstant n + WINDOW) ∧
    WINDOW = 60 := by
  refine ⟨(tickLoop_snd now m qdb qgh).1, (tickLoop_snd now m qdb qgh).2.1,
    (tickLoop_snd now m qdb qgh).2.2, ?_, ?_, ?_, ?_, ?_, rfl⟩
  · intro h1 h2
    exact tickEmits_count now m h1 h2
  · intro q a h
    rw [trySend, if_pos h]
  · intro q a h
    rw [trySend, if_neg h]
  · rfl
  · intro n
    unfold tickInstant
    ring

/-- An empty Standard window keyed `(1, 3)`. -/
def wEmpty : NodeWindow :=
  { kind := .standard, ids := (1, 3), buf := [], lastPrune := 0 }

/-- A two-key window map: `(1,2)` non-empty, `(1,3)` empty. -/
def mC2 : NodeMap := [((1, 2), w0), ((1, 3), wEmpty)]

/-- Closed witness for `C2_tick_behaviour`: on the concrete map `mC2` the
key with the non-empty window emits exactly one snapshot, the empty-window
key emits none, a zero-capacity queue drops the offer, and a roomy queue
accepts it. -/
theorem C2_tick_behaviour_witness :
    ((tickEmits 100 mC2).filter
        (fun na => decide ((na.greenhouse_id, na.node_id) = (1, 2)))).length
      = 1 ∧
    ((tickEmits 100 mC2).filter
        (fun na => decide ((na.greenhouse_id, na.node_id) = (1, 3)))).length
      = 0 ∧
    trySend { cap := 0, items := ([] : List NodeAvg) } naC4
      = { cap := 0, items := [] } ∧
    (trySend { cap := 5, items := ([] : List NodeAvg) } naC4).items
      = [naC4] := by
  have h := C2_tick_behaviour 100 mC2
    { cap := 0, items := [] } { cap := 0, items := [] }
  refine ⟨?_, ?_, ?_, ?_⟩
  · have h1 := h.2.2.2.1 (by decide) (by decide) (1, 2) w0 (by decide)
    rw [h1]
    decide
  · have h1 := h.2.2.2.1 (by decide) (by decide) (1, 3) wEmpty (by decide)
    rw [h1]
    decide
  · exact h.2.2.2.2.2.1 _ naC4 (by decide)
  · rw [h.2.2.2.2.1 _ naC4 (by decide)]
    rfl

/-! ## Claim C5 -/

/-- Arrival order within a buffer (samples are stamped by a monotone
clock). -/
def TimeSorted (l : List TimedSample) : Prop :=
  l.Pairwise fun a b => a.atT ≤ b.atT

theorem pruneOld_suffix (now : ℕ) (l : List TimedSample) :
    pruneOld now l <:+ l := by
  induction l with
  | nil => exact List.suffix_refl _
  | cons s rest ih =>
      rw [pruneOld]
      by_cases hc : now - s.atT > WINDOW
      · rw [if_pos hc]
        exact ih.trans (List.suffix_cons s rest)
      · rw [if_neg hc]

theorem capTrim_suffix (l : List TimedSample) : capTrim l <:+ l :=
  List.drop_suffix _ _

theorem capTrim_length (l : List TimedSample) :
    (capTrim l).length ≤ MAX_SAMPLES_PER_NODE := by
  rw [capTrim, List.length_drop]
  omega

theorem pruneOld_age (now : ℕ) (l : List TimedSample) (hp : TimeSorted l) :
    ∀ s ∈ pruneOld now l, now - s.atT ≤ WINDOW := by
  induction l with
  | nil => intro s hs; cases hs
  | cons a rest ih =>
      obtain ⟨ha, hp2⟩ := List.pairwise_cons.mp hp
      rw [pruneOld]
      by_cases hc : now - a.atT > WINDOW
      · rw [if_pos hc]
        exact ih hp2
      · rw [if_neg hc]
        intro s hs
        rcases List.mem_cons.mp hs with rfl | hs2
        · omega
        · have := Nat.sub_le_sub_left (ha s hs2) now
          omega

/-- Post-condition of `push_and_prune` under a monotone clock: the buffer
stays time-sorted, holds only samples stamped up to `now`, every sample's
age relative to the prune instant (= `now`) is at most `WINDOW`, and the
hard count cap holds. -/
theorem push_and_prune_post (w : NodeWindow) (now : ℕ) (d : Decoded)
    (hp : TimeSorted w.buf) (hb : ∀ s ∈ w.buf, s.atT ≤ now) :
    (w.push_and_prune now d).lastPrune = now ∧
    TimeSorted (w.push_and_prune now d).buf ∧
    (∀ s ∈ (w.push_and_prune now d).buf, s.atT ≤ now) ∧
    (∀ s ∈ (w.push_and_prune now d).buf, now - s.atT ≤ WINDOW) ∧
    (w.push_and_prune now d).buf.length ≤ MAX_SAMPLES_PER_NODE := by
  have hap : TimeSorted (w.buf ++ [{ atT := now, data := d }]) := by
    rw [TimeSorted, List.pairwise_append]
    refine ⟨hp, List.pairwise_singleton _ _, ?_⟩
    intro a ha b hb2
    rcases List.mem_singleton.mp hb2 with rfl
    exact hb a ha
  have hamem : ∀ s ∈ w.buf ++ [{ atT := now, data := d }], s.atT ≤ now := by
    intro s hs
    rcases List.mem_append.mp hs with h1 | h1
    · exact hb s h1
    · rcases List.mem_singleton.mp h1 with rfl
      exact le_refl _
  have hsub : (w.push_and_prune now d).buf
      ⊆ w.buf ++ [{ atT := now, data := d }] := by
    intro s hs
    exact (pruneOld_suffix now _).subset ((capTrim_suffix _).subset hs)
  refine ⟨rfl, ?_, ?_, ?_, capTrim_length _⟩
  · exact List.Pairwise.sublist ((capTrim_suffix _).sublist.trans
      (pruneOld_suffix now _).sublist) hap
  · intro s hs
    exact hamem s (hsub hs)
  · intro s hs
    exact pruneOld_age now _ hap s ((capTrim_suffix _).subset hs)

/-- Per-entry well-formedness at global time `T`: time-sorted buffer, all
samples stamped at or before the window's last prune instant, which is at
or before `T`; plus the C5 invariant proper (count cap and age bound). -/
def EntryWF (T : ℕ) (kw : (ℕ × ℕ) × NodeWindow) : Prop :=
  TimeSorted kw.2.buf ∧
  (∀ s ∈ kw.2.buf, s.atT ≤ kw.2.lastPrune) ∧
  kw.2.lastPrune ≤ T ∧
  kw.2.buf.length ≤ MAX_SAMPLES_PER_NODE ∧
  (∀ s ∈ kw.2.buf, kw.2.lastPrune - s.atT ≤ WINDOW)

/-- All entries of the window map are well-formed at time `T`. -/
def StateWF (T : ℕ) (m : NodeMap) : Prop := ∀ kw ∈ m, EntryWF T kw

theorem EntryWF.mono {T t : ℕ} {kw : (ℕ × ℕ) × NodeWindow}
    (h : EntryWF T kw) (ht : T ≤ t) : EntryWF t kw :=
  ⟨h.1, h.2.1, le_trans h.2.2.1 ht, h.2.2.2⟩

theorem push_entryWF (t : ℕ) (w : NodeWindow) (d : Decoded) (k : ℕ × ℕ)
    (hp : TimeSorted w.buf) (hb : ∀ s ∈ w.buf, s.atT ≤ t) :
    EntryWF t (k, w.push_and_prune t d) := by
  obtain ⟨h1, h2, h3, h4, h5⟩ := push_and_prune_post w t d hp hb
  refine ⟨h2, ?_, ?_, h5, ?_⟩
  · intro s hs
    rw [h1]
    exact h3 s hs
  · rw [h1]
  · intro s hs
    rw [h1]
    exact h4 s hs

theorem updateEntry_wf (t : ℕ) (d : Decoded) (m : NodeMap) (T : ℕ)
    (h : StateWF T m) (ht : T ≤ t) : StateWF t (updateEntry t d m) := by
  induction m with
  | nil =>
      intro kw hkw
      rw [updateEntry] at hkw
      rcases List.mem_singleton.mp hkw with rfl
      exact push_entryWF t _ d _ List.Pairwise.nil (by
        intro s hs; cases hs)
  | cons e rest ih =>
      obtain ⟨k, w⟩ := e
      have hhead := h (k, w) (List.mem_cons_self _ _)
      have hrest : StateWF T rest := fun kw hkw => h kw (List.mem_cons_of_mem _ hkw)
      intro kw hkw
      rw [updateEntry] at hkw
      by_cases hk : k = (keyKind d).1
      · rw [if_pos hk] at hkw
        rcases List.mem_cons.mp hkw with rfl | h2
        · exact push_entryWF t w d k hhead.1 (by
            intro s hs
            exact le_trans (hhead.2.1 s hs) (le_trans hhead.2.2.1 ht))
        · exact (hrest kw h2).mono ht
      · rw [if_neg hk] at hkw
        rcases List.mem_cons.mp hkw with rfl | h2
        · exact hhead.mono ht
        · exact ih hrest kw h2

theorem tick_entryWF (t : ℕ) (kw : (ℕ × ℕ) × NodeWindow) (T : ℕ)
    (h : EntryWF T kw) (ht : T ≤ t) :
    EntryWF t (kw.1, (tickWindow t kw.2).1) := by
  rw [tickWindow_fst]
  have hsub : pruneOld t kw.2.buf ⊆ kw.2.buf := (pruneOld_suffix t _).subset
  refine ⟨?_, ?_, le_refl t, ?_, ?_⟩
  · exact List.Pairwise.sublist (pruneOld_suffix t _).sublist h.1
  · intro s hs
    exact le_trans (h.2.1 s (hsub hs)) (le_trans h.2.2.1 ht)
  · exact le_trans (pruneOld_suffix t _).sublist.length_le h.2.2.2.1
  · intro s hs
    exact pruneOld_age t _ h.1 s hs

theorem stepAgg_wf (m : NodeMap) (ev : AggEvent) (T : ℕ)
    (h : StateWF T m) (ht : T ≤ ev.time) :
    StateWF ev.time (stepAgg m ev) := by
  cases ev with
  | sample t d => exact updateEntry_wf t d m T h ht
  | tick t =>
      intro kw hkw
      rw [stepAgg] at hkw
      obtain ⟨e, he, rfl⟩ := List.mem_map.mp hkw
      exact tick_entryWF t e T (h e he) ht

theorem runAgg_aux (evs : List AggEvent) (m : NodeMap) (T : ℕ)
    (h : StateWF T m) (hall : ∀ e ∈ evs, T ≤ e.time)
    (hmono : evs.Pairwise fun a b => a.time ≤ b.time) :
    ∃ T2, StateWF T2 (evs.foldl stepAgg m) := by
  induction evs generalizing m T with
  | nil => exact ⟨T, h⟩
  | cons e rest ih =>
      obtain ⟨hhead, hmono2⟩ := List.pairwise_cons.mp hmono
      rw [List.foldl_cons]
      exact ih (stepAgg m e)
        e.time
        (stepAgg_wf m e T h (hall e (List.mem_cons_self _ _)))
        (fun e2 he2 => hhead e2 he2)
        hmono2

/-- C5: after any trace of sample arrivals and ticks handled at
nondecreasing instants (the source timestamps both with the monotone
`Instant::now()`), every window of the reachable aggregator state holds at
most `MAX_SAMPLES_PER_NODE` (= 64) samples, and every retained sample's age
relative to that window's own most recent prune instant (recorded by the
`lastPrune` instrumentation, set by `push_and_prune` on arrival and by the
tick's re-prune) is at most `WINDOW` (= 60 s). -/
theorem C5_window_invariant (evs : List AggEvent)
    (hmono : evs.Pairwise fun a b => a.time ≤ b.time) :
    (∀ kw ∈ runAgg evs,
        kw.2.buf.length ≤ MAX_SAMPLES_PER_NODE ∧
        ∀ s ∈ kw.2.buf, kw.2.lastPrune - s.atT ≤ WINDOW) ∧
    MAX_SAMPLES_PER_NODE = 64 ∧ WINDOW = 60 := by
  refine ⟨?_, rfl, rfl⟩
  obtain ⟨T2, hwf⟩ := runAgg_aux evs [] 0 (fun kw hkw => by cases hkw)
    (fun e he => Nat.zero_le _) hmono
  intro kw hkw
  exact ⟨(hwf kw hkw).2.2.2.1, (hwf kw hkw).2.2.2.2⟩

/-- The decoded sample used in the C5 witness trace. -/
def dC5 : Decoded := (sampleStd 0 20).data

/-- A concrete monotone trace: arrivals at 10 and 80, tick at 120. -/
def traceC5 : List AggEvent :=
  [AggEvent.sample 10 dC5, AggEvent.sample 80 dC5, AggEvent.tick 120]

/-- The window state `traceC5` reaches: the arrival at 10 is pruned by the
arrival at 80 (70 s apart), and the tick at 120 keeps the sample at 80. -/
def wC5 : NodeWindow :=
  { kind := .standard, ids := (1, 2),
    buf := [{ atT := 80, data := dC5 }], lastPrune := 120 }

/-- Closed witness for `C5_window_invariant` on the concrete trace. -/
theorem C5_window_invariant_witness :
    runAgg traceC5 = [((1, 2), wC5)] ∧
    wC5.buf.length ≤ MAX_SAMPLES_PER_NODE ∧
    wC5.lastPrune - (80 : ℕ) ≤ WINDOW := by
  have h := (C5_window_invariant traceC5 (by decide)).1
    ((1, 2), wC5) (by decide)
  exact ⟨by decide, h.1, h.2 { atT := 80, data := dC5 } (by decide)⟩

/-! ## Storage helper lemmas -/

theorem ensure_greenhouse_parts (db : DB) (gh : ℕ) :
    (ensure_greenhouse db gh).node_values = db.node_values ∧
    (ensure_greenhouse db gh).greenhouse_average = db.greenhouse_average ∧
    (ensure_greenhouse db gh).sensor_type = db.sensor_type ∧
    (ensure_greenhouse db gh).node_name = db.node_name := by
  unfold ensure_greenhouse
  split <;> exact ⟨rfl, rfl, rfl, rfl⟩

theorem ensure_sensor_parts (db : DB) (key unit : String) :
    (ensure_sensor db key unit).1.node_values = db.node_values ∧
    (ensure_sensor db key unit).1.greenhouse_average
      = db.greenhouse_average ∧
    (ensure_sensor db key unit).1.node_name = db.node_name := by
  unfold ensure_sensor
  cases hx : db.sensor_type.findIdx? (fun kv => decide (kv.1 = key)) <;>
    exact ⟨rfl, rfl, rfl⟩

theorem ensure_node_parts (db : DB) (g n : ℕ) (l : String) :
    (ensure_node db g n l).1.node_values = db.node_values ∧
    (ensure_node db g n l).1.greenhouse_average = db.greenhouse_average ∧
    (ensure_node db g n l).1.sensor_type = db.sensor_type := by
  simp only [ensure_node]
  split <;>
    exact ⟨(ensure_greenhouse_parts db g).1,
      (ensure_greenhouse_parts db g).2.1,
      (ensure_greenhouse_parts db g).2.2.1⟩

theorem insert_node_field_parts (env : FailEnv) (i j : ℕ) (ts : ℤ)
    (rowid : ℕ) (key unit : String) (val : Option ℚ) (db : DB) :
    (∀ r ∈ (insert_node_field env i j ts rowid key unit val db).node_values,
        r ∈ db.node_values ∨
          (r.ts = ts ∧ r.node = rowid ∧ r.value = r2 val)) ∧
    (insert_node_field env i j ts rowid key unit val db).greenhouse_average
      = db.greenhouse_average := by
  unfold insert_node_field
  by_cases h1 : env.nodeSensorFail i j = true
  · rw [if_pos h1]
    exact ⟨fun r hr => Or.inl hr, rfl⟩
  · rw [if_neg h1]
    by_cases h2 : env.nodeInsertFail i j = true
    · rw [if_pos h2]
      refine ⟨?_, (ensure_sensor_parts db key unit).2.1⟩
      rw [(ensure_sensor_parts db key unit).1]
      exact fun r hr => Or.inl hr
    · rw [if_neg h2]
      constructor
      · intro r hr
        simp only [insertNodeRow] at hr
        split at hr
        · rw [(ensure_sensor_parts db key unit).1] at hr
          exact Or.inl hr
        · rcases List.mem_append.mp hr with hl | hl
          · rw [(ensure_sensor_parts db key unit).1] at hl
            exact Or.inl hl
          · rcases List.mem_singleton.mp hl with rfl
            exact Or.inr ⟨rfl, rfl, rfl⟩
      · exact (ensure_sensor_parts db key unit).2.1

theorem insertNodeFieldsFrom_parts (env : FailEnv) (i : ℕ) (ts : ℤ)
    (rowid : ℕ) (j : ℕ) (fs : List (String × String × Option ℚ)) (db : DB) :
    (∀ r ∈ (insertNodeFieldsFrom env i ts rowid j fs db).node_values,
        r ∈ db.node_values ∨
          (r.ts = ts ∧ r.node = rowid ∧ ∃ f ∈ fs, r.value = r2 f.2.2)) ∧
    (insertNodeFieldsFrom env i ts rowid j fs db).greenhouse_average
      = db.greenhouse_average := by
  induction fs generalizing j db with
  | nil => exact ⟨fun r hr => Or.inl hr, rfl⟩
  | cons f rest ih =>
      rw [insertNodeFieldsFrom]
      constructor
      · intro r hr
        rcases (ih (j+1)
            (insert_node_field env i j ts rowid f.1 f.2.1 f.2.2 db)).1 r hr
          with h | ⟨hts, hnode, g, hg, hv⟩
        · rcases (insert_node_field_parts env i j ts rowid f.1 f.2.1 f.2.2
              db).1 r h with h2 | ⟨hts, hnode, hv⟩
          · exact Or.inl h2
          · exact Or.inr ⟨hts, hnode, f, List.mem_cons_self _ _, hv⟩
        · exact Or.inr ⟨hts, hnode, g, List.mem_cons_of_mem _ hg, hv⟩
      · rw [(ih (j+1) _).2]
        exact (insert_node_field_parts env i j ts rowid f.1 f.2.1 f.2.2 db).2

theorem processNode_parts (env : FailEnv) (i : ℕ) (ts : ℤ) (na : NodeAvg)
    (db : DB) :
    (∀ r ∈ (processNode env i ts na db).node_values,
        r ∈ db.node_values ∨
          (r.ts = ts ∧ ∃ f ∈ nodeFields na, r.value = r2 f.2.2)) ∧
    (processNode env i ts na db).greenhouse_average
      = db.greenhouse_average := by
  unfold processNode
  by_cases h1 : env.nodeEnsureFail i = true
  · rw [if_pos h1]
    exact ⟨fun r hr => Or.inl hr, rfl⟩
  · rw [if_neg h1]
    constructor
    · intro r hr
      rcases (insertNodeFieldsFrom_parts env i ts _ 0 (nodeFields na) _).1 r
        hr with h | ⟨hts, _, g, hg, hv⟩
      · rw [(ensure_node_parts db na.greenhouse_id na.node_id
            (label_for na.node_id)).1] at h
        exact Or.inl h
      · exact Or.inr ⟨hts, g, hg, hv⟩
    · rw [(insertNodeFieldsFrom_parts env i ts _ 0 (nodeFields na) _).2]
      exact (ensure_node_parts db na.greenhouse_id na.node_id
        (label_for na.node_id)).2.1

theorem processNodes_parts (env : FailEnv) (ts : ℤ) (i : ℕ)
    (bn : List NodeAvg) (db : DB) :
    (∀ r ∈ (processNodes env ts i bn db).node_values,
        r ∈ db.node_values ∨
          (r.ts = ts ∧ ∃ na ∈ bn, ∃ f ∈ nodeFields na, r.value = r2 f.2.2)) ∧
    (processNodes env ts i bn db).greenhouse_average
      = db.greenhouse_average := by
  induction bn generalizing i db with
  | nil => exact ⟨fun r hr => Or.inl hr, rfl⟩
  | cons na rest ih =>
      rw [processNodes]
      constructor
      · intro r hr
        rcases (ih (i+1) (processNode env i ts na db)).1 r hr
          with h | ⟨hts, na2, hna2, g, hg, hv⟩
        · rcases (processNode_parts env i ts na db).1 r h
            with h2 | ⟨hts, g, hg, hv⟩
          · exact Or.inl h2
          · exact Or.inr ⟨hts, na, List.mem_cons_self _ _, g, hg, hv⟩
        · exact Or.inr ⟨hts, na2, List.mem_cons_of_mem _ hna2, g, hg, hv⟩
      · rw [(ih (i+1) _).2]
        exact (processNode_parts env i ts na db).2

theorem insert_gh_field_parts (env : FailEnv) (i j : ℕ) (ts : ℤ) (gh : ℕ)
    (key unit : String) (val : Option ℚ) (nodes : ℕ) (db : DB) :
    (∀ r ∈ (insert_gh_field env i j ts gh key unit val nodes
          db).greenhouse_average,
        r ∈ db.greenhouse_average ∨ (r.ts = ts ∧ r.value = r2 val)) ∧
    (insert_gh_field env i j ts gh key unit val nodes db).node_values
      = db.node_values := by
  unfold insert_gh_field
  by_cases h1 : env.ghGreenhouseFail i j = true
  · rw [if_pos h1]
    exact ⟨fun r hr => Or.inl hr, rfl⟩
  · rw [if_neg h1]
    by_cases h2 : env.ghSensorFail i j = true
    · rw [if_pos h2]
      rw [(ensure_greenhouse_parts db gh).2.1, (ensure_greenhouse_parts db
        gh).1]
      exact ⟨fun r hr => Or.inl hr, rfl⟩
    · rw [if_neg h2]
      by_cases h3 : env.ghInsertFail i j = true
      · rw [if_pos h3]
        rw [(ensure_sensor_parts _ key unit).2.1,
          (ensure_greenhouse_parts db gh).2.1,
          (ensure_sensor_parts _ key unit).1,
          (ensure_greenhouse_parts db gh).1]
        exact ⟨fun r hr => Or.inl hr, rfl⟩
      · rw [if_neg h3]
        constructor
        · intro r hr
          simp only [insertGhRow] at hr
          split at hr
          · rw [(ensure_sensor_parts _ key unit).2.1,
              (ensure_greenhouse_parts db gh).2.1] at hr
            exact Or.inl hr
          · rcases List.mem_append.mp hr with hl | hl
            · rw [(ensure_sensor_parts _ key unit).2.1,
                (ensure_greenhouse_parts db gh).2.1] at hl
              exact Or.inl hl
            · rcases List.mem_singleton.mp hl with rfl
              exact Or.inr ⟨rfl, rfl⟩
        · rw [(ensure_sensor_parts _ key unit).1,
            (ensure_greenhouse_parts db gh).1]

theorem insertGhFieldsFrom_parts (env : FailEnv) (i : ℕ) (ts : ℤ)
    (gh nodes : ℕ) (j : ℕ) (fs : List (String × String × Option ℚ))
    (db : DB) :
    (∀ r ∈ (insertGhFieldsFrom env i ts gh nodes j fs
          db).greenhouse_average,
        r ∈ db.greenhouse_average ∨
          (r.ts = ts ∧ ∃ f ∈ fs, r.value = r2 f.2.2)) ∧
    (insertGhFieldsFrom env i ts gh nodes j fs db).node_values
      = db.node_values := by
  induction fs generalizing j db with
  | nil => exact ⟨fun r hr => Or.inl hr, rfl⟩
  | cons f rest ih =>
      rw [insertGhFieldsFrom]
      constructor
      · intro r hr
        rcases (ih (j+1)
            (insert_gh_field env i j ts gh f.1 f.2.1 f.2.2 nodes db)).1 r hr
          with h | ⟨hts, g, hg, hv⟩
        · rcases (insert_gh_field_parts env i j ts gh f.1 f.2.1 f.2.2 nodes
              db).1 r h with h2 | ⟨hts, hv⟩
          · exact Or.inl h2
          · exact Or.inr ⟨hts, f, List.mem_cons_self _ _, hv⟩
        · exact Or.inr ⟨hts, g, List.mem_cons_of_mem _ hg, hv⟩
      · rw [(ih (j+1) _).2]
        exact (insert_gh_field_parts env i j ts gh f.1 f.2.1 f.2.2 nodes
          db).2

theorem processGhs_parts (env : FailEnv) (ts : ℤ) (i : ℕ)
    (bg : List GhAvg) (db : DB) :
    (∀ r ∈ (processGhs env ts i bg db).greenhouse_average,
        r ∈ db.greenhouse_average ∨
          (r.ts = ts ∧ ∃ ga ∈ bg, ∃ f ∈ ghFields ga, r.value = r2 f.2.2)) ∧
    (processGhs env ts i bg db).node_values = db.node_values := by
  induction bg generalizing i db with
  | nil => exact ⟨fun r hr => Or.inl hr, rfl⟩
  | cons ga rest ih =>
      rw [processGhs]
      constructor
      · intro r hr
        rcases (ih (i+1) _).1 r hr with h | ⟨hts, ga2, hga2, g, hg, hv⟩
        · rcases (insertGhFieldsFrom_parts env i ts ga.greenhouse_id
              ga.nodes 0 (ghFields ga) db).1 r h
            with h2 | ⟨hts, g, hg, hv⟩
          · exact Or.inl h2
          · exact Or.inr ⟨hts, ga, List.mem_cons_self _ _, g, hg, hv⟩
        · exact Or.inr ⟨hts, ga2, List.mem_cons_of_mem _ hga2, g, hg, hv⟩
      · rw [(ih (i+1) _).2]
        exact (insertGhFieldsFrom_parts env i ts ga.greenhouse_id ga.nodes 0
          (ghFields ga) db).2

/-- Every row a flush adds (to either fact table) carries the flush's
single `now_ms` timestamp `ts` and a value that is the `r2`-rounded value
of one of the batch's snapshot fields. -/
theorem flush_new_rows (env : FailEnv) (ts : ℤ) (db : DB)
    (bn : List NodeAvg) (bg : List GhAvg) :
    (∀ r ∈ (flush_batch env ts db bn bg).node_values,
        r ∈ db.node_values ∨
          (r.ts = ts ∧ ∃ na ∈ bn, ∃ f ∈ nodeFields na, r.value = r2 f.2.2)) ∧
    (∀ r ∈ (flush_batch env ts db bn bg).greenhouse_average,
        r ∈ db.greenhouse_average ∨
          (r.ts = ts ∧ ∃ ga ∈ bg, ∃ f ∈ ghFields ga, r.value = r2 f.2.2)) := by
  unfold flush_batch
  by_cases he : bn = [] ∧ bg = []
  · rw [if_pos he]
    exact ⟨fun r hr => Or.inl hr, fun r hr => Or.inl hr⟩
  · rw [if_neg he]
    by_cases ho : env.openFail = true
    · rw [if_pos ho]
      exact ⟨fun r hr => Or.inl hr, fun r hr => Or.inl hr⟩
    · rw [if_neg ho]
      by_cases hb : env.beginFail = true
      · rw [if_pos hb]
        exact ⟨fun r hr => Or.inl hr, fun r hr => Or.inl hr⟩
      · rw [if_neg hb]
        by_cases hc : env.commitFail = true
        · rw [if_pos hc]
          exact ⟨fun r hr => Or.inl hr, fun r hr => Or.inl hr⟩
        · rw [if_neg hc]
          constructor
          · intro r hr
            rw [(processGhs_parts env ts 0 bg _).2] at hr
            exact (processNodes_parts env ts 0 bn db).1 r hr
          · intro r hr
            rcases (processGhs_parts env ts 0 bg _).1 r hr
              with h | ⟨hts, ga, hga, g, hg, hv⟩
            · rw [(processNodes_parts env ts 0 bn db).2] at h
              exact Or.inl h
            · exact Or.inr ⟨hts, ga, hga, g, hg, hv⟩

/-! ## Claim C7 -/

/-- C7: under the `UNIQUE(ts_ms, entity, sensor_type_id, agg)` constraint,
`INSERT OR IGNORE` of a fact row whose key is already stored leaves the
fact table unchanged, and re-inserting the same row twice equals inserting
it once — for both the node-value and the greenhouse-average fact tables. -/
theorem C7_idempotent_insert (t : List NodeFactRow) (r : NodeFactRow)
    (tg : List GhFactRow) (rg : GhFactRow) :
    ((∃ r0 ∈ t, nodeKey r0 = nodeKey r) → insertNodeRow t r = t) ∧
    insertNodeRow (insertNodeRow t r) r = insertNodeRow t r ∧
    ((∃ r0 ∈ tg, ghKey r0 = ghKey rg) → insertGhRow tg rg = tg) ∧
    insertGhRow (insertGhRow tg rg) rg = insertGhRow tg rg := by
  refine ⟨?_, ?_, ?_, ?_⟩
  · intro h
    rw [insertNodeRow, if_pos (by simpa [List.any_eq_true] using h)]
  · by_cases hc : (t.any fun r0 => decide (nodeKey r0 = nodeKey r)) = true
    · have hin : insertNodeRow t r = t := by rw [insertNodeRow, if_pos hc]
      rw [hin]
      exact hin
    · have hin : insertNodeRow t r = t ++ [r] := by
        rw [insertNodeRow, if_neg hc]
      rw [hin, insertNodeRow, if_pos (by simp [List.any_append])]
  · intro h
    rw [insertGhRow, if_pos (by simpa [List.any_eq_true] using h)]
  · by_cases hc : (tg.any fun r0 => decide (ghKey r0 = ghKey rg)) = true
    · have hin : insertGhRow tg rg = tg := by rw [insertGhRow, if_pos hc]
      rw [hin]
      exact hin
    · have hin : insertGhRow tg rg = tg ++ [rg] := by
        rw [insertGhRow, if_neg hc]
      rw [hin, insertGhRow, if_pos (by simp [List.any_append])]

/-- A concrete node fact row (value absent, so every component is
kernel-computable). -/
def rowC7 : NodeFactRow :=
  { ts := 5, node := 0, sensor := 0, value := none, agg := "rolling_60s",
    window_sec := 60 }

/-- A concrete greenhouse fact row. -/
def growC7 : GhFactRow :=
  { ts := 5, gh := 1, sensor := 0, value := none, nodes := 1,
    agg := "rolling_60s", window_sec := 60 }

/-- Closed witness for `C7_idempotent_insert`: re-inserting a stored row is
a no-op on both fact tables. -/
theorem C7_idempotent_insert_witness :
    insertNodeRow [rowC7] rowC7 = [rowC7] ∧
    insertGhRow [growC7] growC7 = [growC7] :=
  ⟨(C7_idempotent_insert [rowC7] rowC7 [growC7] growC7).1
      ⟨rowC7, List.mem_singleton.mpr rfl, rfl⟩,
   (C7_idempotent_insert [rowC7] rowC7 [growC7] growC7).2.2.1
      ⟨growC7, List.mem_singleton.mpr rfl, rfl⟩⟩

/-! ## Claim C8 -/

/-- The all-success environment except that `ensure_sensor` fails for node
snapshot `i`, field `j`. -/
def envNSFail (i j : ℕ) : FailEnv :=
  { FailEnv.ok with
      nodeSensorFail := fun a b => decide (a = i) && decide (b = j) }

/-- The all-success environment except that the greenhouse-average insert
of snapshot `i`, field `j` fails. -/
def envGhFail (i j : ℕ) : FailEnv :=
  { FailEnv.ok with
      ghInsertFail := fun a b => decide (a = i) && decide (b = j) }

/-- The all-success environment except that `ensure_sensor` fails for
greenhouse snapshot `i`, field `j`. -/
def envGhNSFail (i j : ℕ) : FailEnv :=
  { FailEnv.ok with
      ghSensorFail := fun a b => decide (a = i) && decide (b = j) }

/-- The sensor catalog the first flushed snapshot builds: the fifteen
`(key, unit)` pairs in field order (`nodeFields` and `ghFields` share the
same keys in the same order). -/
def sensorCatalog : List (String × String) :=
  [("air_temp_c", "C"), ("leaf_temp_c", "C"), ("bag_temp_c", "C"),
   ("air_rh_pct", "%"), ("bag_rh1_pct", "%"), ("bag_rh2_pct", "%"),
   ("bag_rh3_pct", "%"), ("bag_rh4_pct", "%"), ("bag_rh_avg_pct", "%"),
   ("par_value", ""), ("weight_g", ""), ("ea_air_kpa", "kPa"),
   ("ea_leaf_kpa", "kPa"), ("es_kpa", "kPa"), ("vpd_kpa", "kPa")]

/-- The node fact rows a list of fields produces for node rowid `ρ` when
every write succeeds, with consecutive sensor ids from `σ`. -/
def rowsFor (ts : ℤ) (ρ : ℕ) :
    ℕ → List (String × String × Option ℚ) → List NodeFactRow
  | _, [] => []
  | σ, f :: fs =>
      { ts := ts, node := ρ, sensor := σ, value := r2 f.2.2,
        agg := "rolling_60s", window_sec := 60 } :: rowsFor ts ρ (σ+1) fs

/-- The node fact rows an all-success flush of a batch produces, snapshot
`k` getting node rowid `k`. -/
def rowsForBatch (ts : ℤ) : ℕ → List NodeAvg → List NodeFactRow
  | _, [] => []
  | k, na :: rest =>
      rowsFor ts k 0 (nodeFields na) ++ rowsForBatch ts (k+1) rest

/-- The greenhouse fact rows one snapshot's fields produce when every
write succeeds. -/
def ghRowsFor (ts : ℤ) (g n : ℕ) :
    ℕ → List (String × String × Option ℚ) → List GhFactRow
  | _, [] => []
  | σ, f :: fs =>
      { ts := ts, gh := g, sensor := σ, value := r2 f.2.2, nodes := n,
        agg := "rolling_60s", window_sec := 60 } :: ghRowsFor ts g n (σ+1) fs

/-- The greenhouse fact rows an all-success flush of a batch produces. -/
def ghRowsBatch (ts : ℤ) : List GhAvg → List GhFactRow
  | [] => []
  | ga :: rest =>
      ghRowsFor ts ga.greenhouse_id ga.nodes 0 (ghFields ga)
        ++ ghRowsBatch ts rest

/-- The greenhouse-id catalog accumulated by successive
`ensure_greenhouse` calls. -/
def ghAcc (acc : List ℕ) : List ℕ → List ℕ
  | [] => acc
  | g :: gs => ghAcc (if g ∈ acc then acc else acc ++ [g]) gs

theorem rowsFor_mem (ts : ℤ) (ρ : ℕ) (σ0 : ℕ)
    (fs : List (String × String × Option ℚ)) :
    ∀ r ∈ rowsFor ts ρ σ0 fs,
      r.node = ρ ∧ σ0 ≤ r.sensor ∧ r.sensor < σ0 + fs.length ∧ r.ts = ts := by
  induction fs generalizing σ0 with
  | nil => intro r hr; cases hr
  | cons f rest ih =>
      intro r hr
      rcases List.mem_cons.mp hr with rfl | h2
      · exact ⟨rfl, le_refl _, by simp, rfl⟩
      · obtain ⟨h1, h2a, h2b, h2c⟩ := ih (σ0+1) r h2
        exact ⟨h1, by omega, by simp only [List.length_cons]; omega, h2c⟩

theorem rowsForBatch_mem (ts : ℤ) (k : ℕ) (l : List NodeAvg) :
    ∀ r ∈ rowsForBatch ts k l,
      k ≤ r.node ∧ r.node < k + l.length ∧ r.ts = ts := by
  induction l generalizing k with
  | nil => intro r hr; cases hr
  | cons na rest ih =>
      intro r hr
      rcases List.mem_append.mp hr with h1 | h1
      · obtain ⟨h, _, _, hts⟩ := rowsFor_mem ts k 0 (nodeFields na) r h1
        exact ⟨le_of_eq h.symm, by simp only [List.length_cons]; omega, hts⟩
      · obtain ⟨h1a, h1b, h1c⟩ := ih (k+1) r h1
        exact ⟨by omega, by simp only [List.length_cons]; omega, h1c⟩

theorem ghRowsFor_mem (ts : ℤ) (g n : ℕ) (σ0 : ℕ)
    (fs : List (String × String × Option ℚ)) :
    ∀ r ∈ ghRowsFor ts g n σ0 fs,
      r.gh = g ∧ σ0 ≤ r.sensor ∧ r.sensor < σ0 + fs.length ∧ r.ts = ts := by
  induction fs generalizing σ0 with
  | nil => intro r hr; cases hr
  | cons f rest ih =>
      intro r hr
      rcases List.mem_cons.mp hr with rfl | h2
      · exact ⟨rfl, le_refl _, by simp, rfl⟩
      · obtain ⟨h1, h2a, h2b, h2c⟩ := ih (σ0+1) r h2
        exact ⟨h1, by omega, by simp only [List.length_cons]; omega, h2c⟩

theorem ghRowsBatch_mem (ts : ℤ) (l : List GhAvg) :
    ∀ r ∈ ghRowsBatch ts l,
      (∃ ga ∈ l, r.gh = ga.greenhouse_id) ∧ r.ts = ts := by
  induction l with
  | nil => intro r hr; cases hr
  | cons ga rest ih =>
      intro r hr
      rcases List.mem_append.mp hr with h1 | h1
      · obtain ⟨h, _, _, hts⟩ := ghRowsFor_mem ts ga.greenhouse_id ga.nodes
          0 (ghFields ga) r h1
        exact ⟨⟨ga, List.mem_cons_self _ _, h⟩, hts⟩
      · obtain ⟨⟨ga2, hga2, hgh⟩, hts⟩ := ih r h1
        exact ⟨⟨ga2, List.mem_cons_of_mem _ hga2, hgh⟩, hts⟩

theorem eg_node_name (db : DB) (g : ℕ) :
    (ensure_greenhouse db g).node_name = db.node_name :=
  (ensure_greenhouse_parts db g).2.2.2

theorem eg_sensor_type (db : DB) (g : ℕ) :
    (ensure_greenhouse db g).sensor_type = db.sensor_type :=
  (ensure_greenhouse_parts db g).2.2.1

theorem eg_node_values (db : DB) (g : ℕ) :
    (ensure_greenhouse db g).node_values = db.node_values :=
  (ensure_greenhouse_parts db g).1

theorem eg_gh_avg (db : DB) (g : ℕ) :
    (ensure_greenhouse db g).greenhouse_average = db.greenhouse_average :=
  (ensure_greenhouse_parts db g).2.1

theorem eg_gh_id (db : DB) (g : ℕ) :
    (ensure_greenhouse db g).greenhouse_id
      = if g ∈ db.greenhouse_id then db.greenhouse_id
        else db.greenhouse_id ++ [g] := by
  unfold ensure_greenhouse
  split <;> simp_all

theorem ensure_greenhouse_idem (db : DB) (g : ℕ) :
    ensure_greenhouse (ensure_greenhouse db g) g = ensure_greenhouse db g := by
  by_cases h : g ∈ db.greenhouse_id <;> simp [ensure_greenhouse, h]

theorem rustRound_close (x : ℚ) : |x - (rustRound x : ℚ)| ≤ 1 / 2 := by
  unfold rustRound
  by_cases h : 0 ≤ x
  · rw [if_pos h]
    have h1 : (⌊x + 1/2⌋ : ℚ) ≤ x + 1/2 := Int.floor_le _
    have h2 : x + 1/2 - 1 < (⌊x + 1/2⌋ : ℚ) := Int.sub_one_lt_floor _
    rw [abs_le]
    constructor <;> linarith
  · rw [if_neg h]
    have h1 : (⌊-x + 1/2⌋ : ℚ) ≤ -x + 1/2 := Int.floor_le _
    have h2 : -x + 1/2 - 1 < (⌊-x + 1/2⌋ : ℚ) := Int.sub_one_lt_floor _
    rw [abs_le]
    push_cast
    constructor <;> linarith

/-- C9: every value a flush writes to a fact table is the `r2` rounding —
to exactly two decimal places, `r2q q` being an integer number of
hundredths within 1/200 of `q` — of the corresponding in-memory snapshot
field; and no rounding happens upstream: the per-field means carried by
`NodeAvg` (`meanStd` / `meanOut`) and by `GhAvg` (`accField`, computed over
the unrounded `NodeAvg` values) are the exact arithmetic means of their
observation lists. -/
theorem C9_rounding_only_at_storage :
    (∀ q : ℚ, r2q q = ((rustRound (q * 100) : ℤ) : ℚ) / 100 ∧
      (r2q q) * 100 = ((rustRound (q * 100) : ℤ) : ℚ) ∧
      |q - r2q q| ≤ 1 / 200) ∧
    (∀ (env : FailEnv) (ts : ℤ) (db : DB) (bn : List NodeAvg)
        (bg : List GhAvg),
      (∀ r ∈ (flush_batch env ts db bn bg).node_values,
          r ∈ db.node_values ∨
            ∃ na ∈ bn, ∃ f ∈ nodeFields na, r.value = r2 f.2.2) ∧
      (∀ r ∈ (flush_batch env ts db bn bg).greenhouse_average,
          r ∈ db.greenhouse_average ∨
            ∃ ga ∈ bg, ∃ f ∈ ghFields ga, r.value = r2 f.2.2)) ∧
    (∀ (proj : StandardData → FVal) (buf : List TimedSample),
        meanStd proj buf = optMean (finiteVals (stdVals proj buf))) ∧
    (∀ (proj : OutdoorData → FVal) (buf : List TimedSample),
        meanOut proj buf = optMean (finiteVals (outVals proj buf))) ∧
    (∀ (proj : NodeAvg → Option ℚ) (l : List NodeAvg),
        accField proj l = optMean (l.filterMap proj)) := by
  refine ⟨?_, ?_, meanStd_eq_optMean, meanOut_eq_optMean,
    accField_eq_optMean⟩
  · intro q
    refine ⟨rfl, by rw [r2q]; ring, ?_⟩
    have h := rustRound_close (q * 100)
    have habs : |q - r2q q| = |q * 100 - (rustRound (q * 100) : ℚ)| / 100 := by
      rw [r2q]
      rw [show q - (rustRound (q * 100) : ℚ) / 100
          = (q * 100 - (rustRound (q * 100) : ℚ)) / 100 by ring]
      rw [abs_div]
      norm_num
    rw [habs]
    linarith
  · intro env ts db bn bg
    constructor
    · intro r hr
      rcases (flush_new_rows env ts db bn bg).1 r hr with h | ⟨_, h⟩
      · exact Or.inl h
      · exact Or.inr h
    · intro r hr
      rcases (flush_new_rows env ts db bn bg).2 r hr with h | ⟨_, h⟩
      · exact Or.inl h
      · exact Or.inr h

/-- Closed witness for `C9_rounding_only_at_storage`: 20.333 rounds to
20.33 (an exact number of hundredths within half a hundredth), and a
dropped leaf-temperature mean over two NaN readings stays `None` upstream. -/
theorem C9_rounding_only_at_storage_witness :
    r2q (20333 / 1000) * 100 = ((rustRound ((20333 / 1000 : ℚ) * 100) : ℤ) : ℚ) ∧
    |(20333 / 1000 : ℚ) - r2q (20333 / 1000)| ≤ 1 / 200 ∧
    meanStd (fun x => x.leaf_temp_c) w0.buf
      = optMean (finiteVals (stdVals (fun x => x.leaf_temp_c) w0.buf)) :=
  ⟨((C9_rounding_only_at_storage).1 (20333 / 1000)).2.1,
   ((C9_rounding_only_at_storage).1 (20333 / 1000)).2.2,
   (C9_rounding_only_at_storage).2.2.1 (fun x => x.leaf_temp_c) w0.buf⟩

/-! ## Claim C10 -/

/-- A second snapshot for the same `(greenhouse, node)` key as `naC4`, with
different field values. -/
def naC10 : NodeAvg :=
  { naC4 with air_temp_c := some 25, air_rh_pct := some 60 }

/-- A concrete greenhouse snapshot. -/
def gaC10 : GhAvg :=
  { greenhouse_id := 1, air_temp_c := some 20, leaf_temp_c := none,
    bag_temp_c := none, air_rh_pct := some 50, bag_rh1_pct := none,
    bag_rh2_pct := none, bag_rh3_pct := none, bag_rh4_pct := none,
    bag_rh_avg_pct := none, par_value := none, weight_g := none,
    ea_air_kpa := none, ea_leaf_kpa := none, es_kpa := none,
    vpd_kpa := none, nodes := 1 }

/-- A second greenhouse snapshot for the same greenhouse id. -/
def gaC10b : GhAvg := { gaC10 with air_temp_c := some 30, nodes := 2 }

set_option maxHeartbeats 8000000 in
set_option maxRecDepth 20000 in
/-- C10: every fact row a single `flush_batch` call adds carries the
flush's one wall-clock timestamp `ts` (taken by `now_ms()` at the start of
the flush — the snapshots' own capture instants are never written); and
when two node snapshots with the same `(greenhouse, node)` key — or two
greenhouse snapshots with the same greenhouse id — sit in one batch, the
insert-or-ignore uniqueness on `(ts, entity, sensor, agg)` persists only
the first snapshot's field values: flushing both equals flushing the first
alone. -/
theorem C10_single_timestamp_dup_collapse (env : FailEnv) (ts : ℤ)
    (db : DB) (bn : List NodeAvg) (bg : List GhAvg) (n1 n2 : NodeAvg)
    (g1 g2 : GhAvg) :
    (∀ r ∈ (flush_batch env ts db bn bg).node_values,
        r ∈ db.node_values ∨ r.ts = ts) ∧
    (∀ r ∈ (flush_batch env ts db bn bg).greenhouse_average,
        r ∈ db.greenhouse_average ∨ r.ts = ts) ∧
    (n2.greenhouse_id = n1.greenhouse_id → n2.node_id = n1.node_id →
      flush_batch FailEnv.ok ts DB.empty [n1, n2] []
        = flush_batch FailEnv.ok ts DB.empty [n1] []) ∧
    (g2.greenhouse_id = g1.greenhouse_id →
      flush_batch FailEnv.ok ts DB.empty [] [g1, g2]
        = flush_batch FailEnv.ok ts DB.empty [] [g1]) := by
  refine ⟨?_, ?_, ?_, ?_⟩
  · intro r hr
    rcases (flush_new_rows env ts db bn bg).1 r hr with h | ⟨hts, _⟩
    · exact Or.inl h
    · exact Or.inr hts
  · intro r hr
    rcases (flush_new_rows env ts db bn bg).2 r hr with h | ⟨hts, _⟩
    · exact Or.inl h
    · exact Or.inr hts
  · intro h1 h2
    simp [flush_batch, processNodes, processGhs, processNode, FailEnv.ok,
      ensure_node, ensure_greenhouse, ensure_sensor, insertNodeFieldsFrom,
      insert_node_field, nodeFields, insertNodeRow, nodeKey, DB.empty,
      h1, h2]
  · intro h1
    simp [flush_batch, processNodes, processGhs, FailEnv.ok,
      ensure_greenhouse, ensure_sensor, insertGhFieldsFrom,
      insert_gh_field, ghFields, insertGhRow, ghKey, DB.empty, h1]

/-- A database holding one pre-existing row, used to discharge the
membership hypotheses of the C10 witness. -/
def dbC10 : DB :=
  { DB.empty with
    node_values := [rowC7]
    greenhouse_average := [growC7] }

/-- Closed witness for `C10_single_timestamp_dup_collapse` on concrete
inputs: pre-existing rows are accounted for, and both duplicate-key
collapses hold for concrete duplicate batches. -/
theorem C10_single_timestamp_dup_collapse_witness :
    (rowC7 ∈ dbC10.node_values ∨ rowC7.ts = (5 : ℤ)) ∧
    (growC7 ∈ dbC10.greenhouse_average ∨ growC7.ts = (5 : ℤ)) ∧
    flush_batch FailEnv.ok 7 DB.empty [naC4, naC10] []
      = flush_batch FailEnv.ok 7 DB.empty [naC4] [] ∧
    flush_batch FailEnv.ok 7 DB.empty [] [gaC10, gaC10b]
      = flush_batch FailEnv.ok 7 DB.empty [] [gaC10] :=
  ⟨(C10_single_timestamp_dup_collapse FailEnv.ok 5 dbC10 [] [] naC4 naC10
      gaC10 gaC10b).1 rowC7 (by decide),
   (C10_single_timestamp_dup_collapse FailEnv.ok 5 dbC10 [] [] naC4 naC10
      gaC10 gaC10b).2.1 growC7 (by decide),
   (C10_single_timestamp_dup_collapse FailEnv.ok 7 DB.empty [] [] naC4
      naC10 gaC10 gaC10b).2.2.1 rfl rfl,
   (C10_single_timestamp_dup_collapse FailEnv.ok 7 DB.empty [] [] naC4
      naC10 gaC10 gaC10b).2.2.2 rfl⟩

end AppTest
